import Mathlib

/-!
Shallow embedding of the `xtask` bootstrap orchestrator
(`src/xtask/src/main.rs`) of the upstream-u128-fixture repository.

The orchestrator is a linear pipeline of external-command invocations
(git, cargo, the Rust compiler's `./x` driver, rustup) plus a few
filesystem reads/writes.  We embed it as a deterministic function over

  * a `World` record holding the externally observable state the
    orchestrator reads or writes (directory existence, the submodule's
    configured URL as printed by `git config --file .gitmodules`, the
    contents of the two generated configuration files, commits created
    in the cloned compiler repository, ...), and
  * an `Oracle` assigning to every external command invocation an
    outcome: spawn failure, exit status zero, or a nonzero exit status.

Every invocation attempt is appended to a trace (a `List Act`), so that
ordering and "was this command ever invoked" properties can be stated.
The effect that a *successful* external command has on the `World` is
modelled at its call site from the command's standard semantics (e.g.
`git submodule add -f <url> <path>` records `<url>` as the configured
submodule URL, `git checkout -B b origin/b` puts the working tree on
branch `b`).  Filesystem operations (`create_dir_all`, `remove_dir_all`,
`fs::write`) are modelled as always succeeding, mirroring the happy path
of the `?`-propagated `std::fs` calls.
-/

namespace Xtask

/-- Constant from main.rs: URL of the patched Rust compiler repository. -/
def RUST_REPO : String := "https://github.com/blueshift-gg/rust"

/-- Constant from main.rs: branch of the patched Rust compiler repository. -/
def RUST_BRANCH : String := "BPF_i128_ret"

/-- Constant from main.rs: URL of the required LLVM fork for the submodule. -/
def LLVM_REPO : String := "https://github.com/blueshift-gg/llvm-project.git"

/-- Constant from main.rs: URL of the patched SBPF linker repository. -/
def LINKER_REPO : String := "https://github.com/blueshift-gg/sbpf-linker"

/-- Constant from main.rs: branch of the patched SBPF linker repository. -/
def LINKER_BRANCH : String := "u128_mul_libcall"

/-- Constant from main.rs: name under which the built toolchain is registered. -/
def TOOLCHAIN_NAME : String := "stage1"

/-- Cache-relative checkout directory of the linker (`base_dir.join("sbpf-linker")`). -/
def linkerDir (cacheRoot : String) : String := cacheRoot ++ "/sbpf-linker"

/-- Path of the built linker binary (`linker_dir.join("target/release/sbpf-linker")`). -/
def linkerBin (cacheRoot : String) : String :=
  linkerDir cacheRoot ++ "/target/release/sbpf-linker"

/-- Cache-relative checkout directory of the compiler (`base_dir.join("rust-compiler")`). -/
def rustDir (cacheRoot : String) : String := cacheRoot ++ "/rust-compiler"

/-- Path of the LLVM submodule working tree (`rust_dir.join("src/llvm-project")`). -/
def llvmDir (cacheRoot : String) : String := rustDir cacheRoot ++ "/src/llvm-project"

/-- Path of the staged compiler output (`rust_dir.join("build/host/stage0")`). -/
def stageDir (cacheRoot : String) : String := rustDir cacheRoot ++ "/build/host/stage0"

/-- The distinct external-command invocation sites of the orchestrator.
Each constructor is one call site in main.rs; `cmdOf` below records the
exact program and argument vector of each. -/
inductive Act where
  | cloneLinker
  | buildLinker
  | cloneRust
  | readSubmoduleUrl
  | updateSubmodule
  | addSubmodule
  | checkoutLlvmBranch
  | stageSubmodule
  | diffCached
  | commitSubmodule
  | xBuild
  | rustupLink
  | cargoBuildBpf
  deriving DecidableEq, Repr

/-- Outcome of attempting to run one external command: the spawn itself
can fail (an `std::io::Error` from `.status()` / `.output()`), or the
command runs and exits with status zero (`exit true`) or nonzero
(`exit false`). -/
inductive ExitRes where
  | spawnFail
  | exit (ok : Bool)
  deriving DecidableEq, Repr

/-- The environment decides the outcome of every external command. -/
def Oracle : Type := Act → ExitRes

/-- An external command as actually invoked: program, argument vector,
optional working directory (`Command::current_dir`). -/
structure Cmd where
  prog : String
  args : List String
  cwd : Option String
  deriving DecidableEq, Repr

/-- The exact program and argument vector each call site passes to
`Command::new(..).args(..)`, read off main.rs. -/
def cmdOf (projectRoot cacheRoot : String) : Act → Cmd
  | .cloneLinker =>
      ⟨"git", ["clone", "--branch", LINKER_BRANCH, LINKER_REPO, linkerDir cacheRoot], none⟩
  | .buildLinker =>
      ⟨"cargo", ["build", "--release"], some (linkerDir cacheRoot)⟩
  | .cloneRust =>
      ⟨"git", ["clone", "--branch", RUST_BRANCH, RUST_REPO, rustDir cacheRoot], none⟩
  | .readSubmoduleUrl =>
      ⟨"git", ["config", "--file", ".gitmodules", "submodule.src/llvm-project.url"],
        some (rustDir cacheRoot)⟩
  | .updateSubmodule =>
      ⟨"git", ["submodule", "update", "--init", "--recursive", "src/llvm-project"],
        some (rustDir cacheRoot)⟩
  | .addSubmodule =>
      ⟨"git", ["submodule", "add", "-f", LLVM_REPO, "src/llvm-project"],
        some (rustDir cacheRoot)⟩
  | .checkoutLlvmBranch =>
      ⟨"git", ["checkout", "-B", "BPF_i128_ret", "origin/BPF_i128_ret"],
        some (llvmDir cacheRoot)⟩
  | .stageSubmodule =>
      ⟨"git", ["add", "src/llvm-project"], some (rustDir cacheRoot)⟩
  | .diffCached =>
      ⟨"git", ["diff", "--cached", "--quiet"], some (rustDir cacheRoot)⟩
  | .commitSubmodule =>
      ⟨"git", ["commit", "-m", "TMP: update submodule to BPF_i128_ret"],
        some (rustDir cacheRoot)⟩
  | .xBuild =>
      ⟨"./x", ["build"], some (rustDir cacheRoot)⟩
  | .rustupLink =>
      ⟨"rustup", ["toolchain", "link", TOOLCHAIN_NAME, stageDir cacheRoot], none⟩
  | .cargoBuildBpf =>
      ⟨"cargo", ["+" ++ TOOLCHAIN_NAME, "build-bpf"], some projectRoot⟩

/-- The description label each call site passes to `run_command` (for
the two invocations not routed through `run_command` —
`readSubmoduleUrl` and `diffCached` — a nominal label, unused by the
pipeline). -/
def describe : Act → String
  | .cloneLinker => "clone sbpf-linker"
  | .buildLinker => "build sbpf-linker"
  | .cloneRust => "clone rust compiler"
  | .readSubmoduleUrl => "read submodule url"
  | .updateSubmodule => "update llvm submodule"
  | .addSubmodule => "add llvm submodule"
  | .checkoutLlvmBranch => "checkout LLVM BPF_i128_ret branch"
  | .stageSubmodule => "stage llvm submodule"
  | .diffCached => "diff cached"
  | .commitSubmodule => "commit llvm submodule update"
  | .xBuild => "build rust compiler"
  | .rustupLink => "link rustup toolchain"
  | .cargoBuildBpf => "build project"

/-- Externally observable state read or written by the orchestrator. -/
structure World where
  /-- does the linker checkout directory exist -/
  linkerDirExists : Bool
  /-- does the compiler checkout directory exist -/
  rustDirExists : Bool
  /-- raw standard output of `git config --file .gitmodules
  submodule.src/llvm-project.url` in the compiler checkout (empty when
  the entry or the file is missing) -/
  submoduleCfgStdout : String
  /-- does `.git/modules/src/llvm-project` exist in the compiler checkout -/
  modulesDirExists : Bool
  /-- does the `src/llvm-project` working-tree directory exist -/
  llvmDirExists : Bool
  /-- branch currently checked out in the submodule working tree -/
  submoduleBranch : Option String
  /-- would staging the submodule pointer produce a nonempty diff
  against the last commit (the semantic meaning of a nonzero exit of
  `git diff --cached --quiet` after `git add src/llvm-project`) -/
  pointerDirty : Bool
  /-- messages of the commits the orchestrator created in the compiler
  checkout, in order -/
  commits : List String
  /-- content of `rust-compiler/bootstrap.toml`, `none` when absent -/
  bootstrapToml : Option String
  /-- content of the project's `.cargo/config.toml`, `none` when absent -/
  cargoConfig : Option String
  /-- has `rustup toolchain link` registered the toolchain -/
  toolchainLinked : Bool
  deriving DecidableEq, Repr

/-- Execution state: the world plus the trace of invocation attempts. -/
structure St where
  world : World
  trace : List Act
  deriving DecidableEq, Repr

/-- The fixed `bootstrap.toml` content written by `setup_compiler` when
the file is absent. -/
def bootstrapTomlContent : String :=
  "change-id = 148803\n[llvm]\n\n# Currently, we only support this when building LLVM for the build triple.\n#\n# Note that many of the LLVM options are not currently supported for\n# downloading. Currently only the \"assertions\" option can be toggled.\ndownload-ci-llvm = false\n\nninja = true\noptimize = true\n"

/-- The fixed marker message of the submodule-pointer commit. -/
def commitMsg : String := "TMP: update submodule to BPF_i128_ret"

/-- Effect of a successful `git clone` of the linker repository. -/
def effCloneLinker (w : World) : World := { w with linkerDirExists := true }

/-- Effect of a successful `git clone` of the compiler repository. -/
def effCloneRust (w : World) : World := { w with rustDirExists := true }

/-- Effect of `std::fs::remove_dir_all` on the submodule's metadata
directory and working tree (each call guarded by an existence check in
the source; the net effect is that neither exists afterwards). -/
def effRemoveSubmoduleDirs (w : World) : World :=
  { w with modulesDirExists := false, llvmDirExists := false }

/-- Effect of a successful `git submodule add -f LLVM_REPO
src/llvm-project`: the configured URL becomes `LLVM_REPO` and both the
metadata directory and the working tree exist again. -/
def effAddSubmodule (w : World) : World :=
  { w with submoduleCfgStdout := LLVM_REPO, modulesDirExists := true,
           llvmDirExists := true }

/-- Effect of a successful `git submodule update --init --recursive`. -/
def effUpdateSubmodule (w : World) : World := { w with llvmDirExists := true }

/-- Effect of a successful `git checkout -B BPF_i128_ret
origin/BPF_i128_ret` inside the submodule working tree. -/
def effCheckoutLlvm (w : World) : World :=
  { w with submoduleBranch := some "BPF_i128_ret" }

/-- Effect of a successful `git commit -m commitMsg` in the compiler
checkout: the staged pointer is recorded and the marker commit appended. -/
def effCommitSubmodule (w : World) : World :=
  { w with pointerDirty := false, commits := w.commits ++ [commitMsg] }

/-- Effect of a successful `rustup toolchain link`. -/
def effRustupLink (w : World) : World := { w with toolchainLinked := true }

/-- Effect of `fs::write` creating `bootstrap.toml` with the fixed
bootstrap options. -/
def effWriteBootstrapToml (w : World) : World :=
  { w with bootstrapToml := some bootstrapTomlContent }

/-- Embedding of `run_command` (main.rs): run one external command,
converting a nonzero exit into the labeled error
`"command failed: <description>"` and a spawn failure into
`"failed to run: <description>"`.  The effect a successful run of the
command has on the world is supplied by the call site. -/
def run_command (o : Oracle) (s : St) (a : Act) (desc : String)
    (eff : World → World) : St × Option String :=
  let s1 : St := { s with trace := s.trace ++ [a] }
  match o a with
  | .spawnFail => (s1, some ("failed to run: " ++ desc))
  | .exit true => ({ s1 with world := eff s1.world }, none)
  | .exit false => (s1, some ("command failed: " ++ desc))

/-- Embedding of Rust's `str::trim` applied to the command's stdout:
drop leading and trailing whitespace. -/
def strTrim (s : String) : String :=
  ⟨((s.data.dropWhile Char.isWhitespace).reverse.dropWhile Char.isWhitespace).reverse⟩

/-- Embedding of `get_submodule_url` (main.rs): invokes
`git config --file .gitmodules submodule.src/llvm-project.url` via
`.output()`, propagates only a spawn failure (with context
`"failed to get submodule url"`), and otherwise returns the trimmed
standard output REGARDLESS of the command's exit status. -/
def get_submodule_url (o : Oracle) (s : St) : St × Except String String :=
  let s1 : St := { s with trace := s.trace ++ [Act.readSubmoduleUrl] }
  match o .readSubmoduleUrl with
  | .spawnFail => (s1, .error "failed to get submodule url")
  | .exit _ => (s1, .ok (strTrim s.world.submoduleCfgStdout))

/-- Fixed part of the generated `.cargo/config.toml` before the linker
binary path (the template in `setup_linker`, main.rs). -/
def cfgHead : String :=
  "[unstable]\nbuild-std = [\"core\", \"alloc\"]\n\n[target.bpfel-unknown-none]\nrustflags = [\n    \"-C\", \"linker="

/-- Fixed part of the generated `.cargo/config.toml` after the linker
binary path: the remaining rustflags and the build-bpf alias. -/
def cfgTail : String :=
  "\",\n    \"-C\", \"panic=abort\",\n    \"-C\", \"link-arg=--dump-module=llvm_dump\",\n    \"-C\", \"link-arg=--llvm-args=-bpf-stack-size=4096\",\n    \"-C\", \"relocation-model=static\",\n]\n\n[alias]\nbuild-bpf = \"build --release --target bpfel-unknown-none\"\nxtask = \"run --package xtask --\"\n"

/-- The full generated `.cargo/config.toml` content for a given linker
binary path (the `format!` template in `setup_linker`). -/
def linkerConfigContent (bin : String) : String := cfgHead ++ bin ++ cfgTail

/-- Error value standing for the raw `std::io::Error` that
`Command::new("git").args(["diff", "--cached", "--quiet"]).status()?`
propagates when the command cannot be spawned (the source adds no
context label to this one). -/
def diffIoError : String := "io error: git diff --cached --quiet"

/-- Sequencing of two fallible pipeline stages: the embedding of Rust's
`?` operator on `Result` — the second stage runs only when the first
returned no error, and the first error is the result. -/
def andThen (r : St × Option String) (g : St → St × Option String) :
    St × Option String :=
  match r with
  | (s1, none) => g s1
  | (s1, some e) => (s1, some e)

/-- Effect of `fs::write` overwriting the project's `.cargo/config.toml`
with the template embedding the given linker binary path. -/
def effWriteCargoConfig (bin : String) (w : World) : World :=
  { w with cargoConfig := some (linkerConfigContent bin) }

/-- Embedding of `setup_linker` (main.rs): clone the linker repository
if its directory is absent, build it with `cargo build --release`, and
unconditionally overwrite the project's `.cargo/config.toml` with the
template embedding the freshly computed linker binary path. -/
def setup_linker (o : Oracle) (_projectRoot cacheRoot : String) (s : St) :
    St × Option String :=
  -- std::fs::create_dir_all(&base_dir): modelled as succeeding
  andThen
    (if s.world.linkerDirExists then (s, none)
     else run_command o s .cloneLinker "clone sbpf-linker" effCloneLinker) fun s1 =>
  andThen (run_command o s1 .buildLinker "build sbpf-linker" (fun w => w)) fun s2 =>
  -- create_dir_all(.cargo) then fs::write(config.toml): unconditional overwrite
  ({ s2 with world := effWriteCargoConfig (linkerBin cacheRoot) s2.world }, none)

/-- The submodule-reconciliation block of `setup_compiler` (step
`[2/5]`, main.rs): read the submodule's configured URL; if it already
equals `LLVM_REPO` only run `git submodule update --init --recursive`,
otherwise remove the submodule's metadata and working-tree directories
and force-add the submodule at `LLVM_REPO` before updating it; in either
case finish with the unconditional `git checkout -B BPF_i128_ret
origin/BPF_i128_ret` inside the submodule working tree. -/
def reconcile_submodule (o : Oracle) (s : St) : St × Option String :=
  match get_submodule_url o s with
  | (s2, .error e) => (s2, some e)
  | (s2, .ok url) =>
    andThen
      (if url = LLVM_REPO then
        run_command o s2 .updateSubmodule "update llvm submodule"
          effUpdateSubmodule
      else
        andThen
          (run_command o { s2 with world := effRemoveSubmoduleDirs s2.world }
            .addSubmodule "add llvm submodule" effAddSubmodule) fun s3 =>
        run_command o s3 .updateSubmodule "update llvm submodule"
          effUpdateSubmodule) fun s4 =>
    run_command o s4 .checkoutLlvmBranch "checkout LLVM BPF_i128_ret branch"
      effCheckoutLlvm

/-- The submodule-pointer commit block of `setup_compiler` (step
`[3/5]`, main.rs): stage `src/llvm-project`, run `git diff --cached
--quiet` directly via `.status()?` (a spawn failure propagates as the
raw io error; the exit status is only branched on), and run `git commit`
with the fixed marker message exactly when the diff exited nonzero. -/
def commit_submodule_pointer (o : Oracle) (s : St) : St × Option String :=
  andThen
    (run_command o s .stageSubmodule "stage llvm submodule" (fun w => w)) fun s6 =>
  match o .diffCached with
  | .spawnFail =>
      ({ s6 with trace := s6.trace ++ [Act.diffCached] }, some diffIoError)
  | .exit diffOk =>
    if diffOk then
      ({ s6 with trace := s6.trace ++ [Act.diffCached] }, none)
    else
      run_command o { s6 with trace := s6.trace ++ [Act.diffCached] }
        .commitSubmodule "commit llvm submodule update"
        effCommitSubmodule

/-- Steps `[2/5]` through `[5/5]` of `setup_compiler` (main.rs), i.e.
everything after the clone-if-absent step: reconcile the LLVM submodule
(`reconcile_submodule`); stage and, if needed, commit the submodule
pointer (`commit_submodule_pointer`); write `bootstrap.toml` only if
absent; run `./x build`; finally `rustup toolchain link`. -/
def compiler_core (o : Oracle) (s : St) : St × Option String :=
  andThen (reconcile_submodule o s) fun s5 =>
  andThen (commit_submodule_pointer o s5) fun s8 =>
  -- bootstrap.toml written only when absent
  andThen
    (run_command o
      (if s8.world.bootstrapToml.isSome then s8
       else { s8 with world := effWriteBootstrapToml s8.world })
      .xBuild "build rust compiler" (fun w => w)) fun s10 =>
  run_command o s10 .rustupLink "link rustup toolchain" effRustupLink

/-- Embedding of `setup_compiler` (main.rs): clone the compiler
repository if absent (step `[1/5]`), then run `compiler_core` (steps
`[2/5]`-`[5/5]`). -/
def setup_compiler (o : Oracle) (_cacheRoot : String) (s : St) :
    St × Option String :=
  -- std::fs::create_dir_all(&base_dir): modelled as succeeding
  andThen
    (if s.world.rustDirExists then (s, none)
     else run_command o s .cloneRust "clone rust compiler" effCloneRust) fun s1 =>
  compiler_core o s1

/-- Embedding of the `Setup` arm of `main` (main.rs): the full setup
pipeline, `setup_linker` then `setup_compiler`, short-circuiting on the
first error. -/
def setup (o : Oracle) (projectRoot cacheRoot : String) (s : St) :
    St × Option String :=
  andThen (setup_linker o projectRoot cacheRoot s) fun s1 =>
  setup_compiler o cacheRoot s1

/-- Embedding of `build_project` (main.rs): invoke
`cargo +stage1 build-bpf` in the project root. -/
def build_project (o : Oracle) (s : St) : St × Option String :=
  run_command o s .cargoBuildBpf "build project" (fun w => w)

/-! Basic inversion lemmas for the pipeline combinators. -/

theorem run_command_spawn {o : Oracle} {s : St} {a : Act} {d : String}
    {eff : World → World} (h : o a = .spawnFail) :
    run_command o s a d eff =
      (⟨s.world, s.trace ++ [a]⟩, some ("failed to run: " ++ d)) := by
  simp [run_command, h]

theorem run_command_ok {o : Oracle} {s : St} {a : Act} {d : String}
    {eff : World → World} (h : o a = .exit true) :
    run_command o s a d eff = (⟨eff s.world, s.trace ++ [a]⟩, none) := by
  simp [run_command, h]

theorem run_command_fail {o : Oracle} {s : St} {a : Act} {d : String}
    {eff : World → World} (h : o a = .exit false) :
    run_command o s a d eff =
      (⟨s.world, s.trace ++ [a]⟩, some ("command failed: " ++ d)) := by
  simp [run_command, h]

theorem run_command_none_inv {o : Oracle} {s : St} {a : Act} {d : String}
    {eff : World → World} {s1 : St}
    (h : run_command o s a d eff = (s1, none)) :
    o a = .exit true ∧ s1 = ⟨eff s.world, s.trace ++ [a]⟩ := by
  unfold run_command at h
  split at h <;> simp_all

theorem run_command_inv {o : Oracle} {s : St} {a : Act} {d : String}
    {eff : World → World} {s1 : St} {res : Option String}
    (h : run_command o s a d eff = (s1, res)) :
    (o a = .exit true ∧ res = none ∧ s1 = ⟨eff s.world, s.trace ++ [a]⟩) ∨
    (o a = .spawnFail ∧ res = some ("failed to run: " ++ d) ∧
      s1 = ⟨s.world, s.trace ++ [a]⟩) ∨
    (o a = .exit false ∧ res = some ("command failed: " ++ d) ∧
      s1 = ⟨s.world, s.trace ++ [a]⟩) := by
  cases ho : o a with
  | spawnFail =>
    rw [run_command_spawn ho] at h
    rw [Prod.mk.injEq] at h
    exact Or.inr (Or.inl ⟨rfl, h.2.symm, h.1.symm⟩)
  | exit b =>
    cases b with
    | true =>
      rw [run_command_ok ho] at h
      rw [Prod.mk.injEq] at h
      exact Or.inl ⟨rfl, h.2.symm, h.1.symm⟩
    | false =>
      rw [run_command_fail ho] at h
      rw [Prod.mk.injEq] at h
      exact Or.inr (Or.inr ⟨rfl, h.2.symm, h.1.symm⟩)

theorem andThen_inv {r : St × Option String} {g : St → St × Option String}
    {sf : St} {res : Option String} (h : andThen r g = (sf, res)) :
    (∃ s1, r = (s1, none) ∧ g s1 = (sf, res)) ∨
    (r = (sf, res) ∧ ∃ e, res = some e) := by
  obtain ⟨s1, o1⟩ := r
  cases o1 with
  | none => exact Or.inl ⟨s1, rfl, by simpa [andThen] using h⟩
  | some e =>
    simp only [andThen] at h
    exact Or.inr ⟨h, e, (congrArg Prod.snd h).symm⟩

theorem andThen_none_inv {r : St × Option String} {g : St → St × Option String}
    {sf : St} (h : andThen r g = (sf, none)) :
    ∃ s1, r = (s1, none) ∧ g s1 = (sf, none) := by
  rcases andThen_inv h with h1 | ⟨_, e, he⟩
  · exact h1
  · exact absurd he (by simp)

theorem strTrim_LLVM_REPO : strTrim LLVM_REPO = LLVM_REPO := rfl

/-- The part of the final trace contributed by one pipeline stage: the
final trace with the initial trace dropped. -/
def delta (s sf : St) : List Act := sf.trace.drop s.trace.length

theorem get_submodule_url_inv {o : Oracle} {s : St} {s1 : St}
    {r : Except String String} (h : get_submodule_url o s = (s1, r)) :
    s1 = ⟨s.world, s.trace ++ [Act.readSubmoduleUrl]⟩ ∧
    ((o .readSubmoduleUrl = .spawnFail ∧ r = .error "failed to get submodule url") ∨
     (∃ b, o .readSubmoduleUrl = .exit b ∧
        r = .ok (strTrim s.world.submoduleCfgStdout))) := by
  unfold get_submodule_url at h
  cases ho : o Act.readSubmoduleUrl with
  | spawnFail =>
    rw [ho] at h
    rw [Prod.mk.injEq] at h
    exact ⟨h.1.symm, Or.inl ⟨rfl, h.2.symm⟩⟩
  | exit b =>
    rw [ho] at h
    rw [Prod.mk.injEq] at h
    exact ⟨h.1.symm, Or.inr ⟨b, rfl, h.2.symm⟩⟩

theorem reconcile_submodule_inv (o : Oracle) (s sf : St) (res : Option String)
    (h : reconcile_submodule o s = (sf, res)) :
    (sf.trace = s.trace ++ delta s sf ∧
     sf.world.linkerDirExists = s.world.linkerDirExists ∧
     sf.world.rustDirExists = s.world.rustDirExists ∧
     sf.world.bootstrapToml = s.world.bootstrapToml ∧
     sf.world.cargoConfig = s.world.cargoConfig ∧
     sf.world.commits = s.world.commits ∧
     sf.world.pointerDirty = s.world.pointerDirty ∧
     delta s sf ⊆ [Act.readSubmoduleUrl, Act.addSubmodule, Act.updateSubmodule,
       Act.checkoutLlvmBranch] ∧
     Act.readSubmoduleUrl ∈ delta s sf ∧
     (res = none → strTrim sf.world.submoduleCfgStdout = LLVM_REPO ∧
       sf.world.submoduleBranch = some "BPF_i128_ret" ∧
       sf.world.llvmDirExists = true ∧ o .checkoutLlvmBranch = .exit true) ∧
     (strTrim s.world.submoduleCfgStdout = LLVM_REPO →
       Act.addSubmodule ∉ delta s sf) ∧
     (o .readSubmoduleUrl ≠ .spawnFail →
       strTrim s.world.submoduleCfgStdout ≠ LLVM_REPO →
       Act.addSubmodule ∈ delta s sf) ∧
     (o .readSubmoduleUrl = .spawnFail →
       res = some "failed to get submodule url" ∧
       delta s sf = [Act.readSubmoduleUrl])) ∧
    (∀ a, a ∈ delta s sf → a ≠ Act.readSubmoduleUrl → o a = .exit false →
      res = some ("command failed: " ++ describe a) ∧
      (delta s sf).getLast? = some a) := by
  unfold reconcile_submodule at h
  rcases hg : get_submodule_url o s with ⟨s2, r⟩
  rw [hg] at h
  obtain ⟨hs2, hbranch⟩ := get_submodule_url_inv hg
  subst hs2
  cases r with
  | error e =>
    simp only [] at h
    rw [Prod.mk.injEq] at h
    obtain ⟨h1, h2⟩ := h
    subst h1; subst h2
    rcases hbranch with ⟨hsp, he⟩ | ⟨b, hb, he⟩
    · rw [Except.error.injEq] at he
      subst he
      exact ⟨by simp_all [delta, List.drop_left], by
        intro a ha hne hf
        simp [delta, List.drop_left] at ha
        simp_all⟩
    · exact absurd he (by simp)
  | ok url =>
    simp only [] at h
    rcases hbranch with ⟨hsp, he⟩ | ⟨b, hb, he⟩
    · exact absurd he (by simp)
    rw [Except.ok.injEq] at he
    subst he
    by_cases hurl : strTrim s.world.submoduleCfgStdout = LLVM_REPO
    · -- branch A: URL already correct, update only
      rw [if_pos hurl] at h
      rcases andThen_inv h with ⟨s4, h4, hck⟩ | ⟨h4, e, hres⟩
      · obtain ⟨hupd, hs4⟩ := run_command_none_inv h4
        subst hs4
        rcases run_command_inv hck with ⟨hok, hres, hsf⟩ | ⟨hok, hres, hsf⟩ | ⟨hok, hres, hsf⟩ <;>
          subst hsf <;> subst hres
        · exact ⟨by simp_all [delta, List.drop_left, effUpdateSubmodule, effCheckoutLlvm, hurl],
            by intro a ha hne hf
               simp [delta, List.drop_left] at ha
               rcases ha with rfl | rfl | rfl <;> simp_all [delta, List.drop_left]⟩
        · exact ⟨by simp_all [delta, List.drop_left, effUpdateSubmodule],
            by intro a ha hne hf
               simp [delta, List.drop_left] at ha
               rcases ha with rfl | rfl | rfl <;> simp_all [delta, List.drop_left]⟩
        · exact ⟨by simp_all [delta, List.drop_left, effUpdateSubmodule],
            by intro a ha hne hf
               simp [delta, List.drop_left] at ha
               rcases ha with rfl | rfl | rfl <;> simp_all [delta, List.drop_left, describe]⟩
      · rcases run_command_inv h4 with ⟨hok, hres2, hsf⟩ | ⟨hok, hres2, hsf⟩ | ⟨hok, hres2, hsf⟩ <;>
          subst hsf
        · exact absurd hres2 (by simp [hres])
        · exact ⟨by simp_all [delta, List.drop_left],
            by intro a ha hne hf
               simp [delta, List.drop_left] at ha
               rcases ha with rfl | rfl <;> simp_all [delta, List.drop_left]⟩
        · exact ⟨by simp_all [delta, List.drop_left],
            by intro a ha hne hf
               simp [delta, List.drop_left] at ha
               rcases ha with rfl | rfl <;> simp_all [delta, List.drop_left, describe]⟩
    · -- branch B: teardown and re-add
      rw [if_neg hurl] at h
      rcases andThen_inv h with ⟨s4, h4, hck⟩ | ⟨h4, e, hres⟩
      · obtain ⟨s3, hadd, hupd⟩ := andThen_none_inv h4
        obtain ⟨haddok, hs3⟩ := run_command_none_inv hadd
        subst hs3
        obtain ⟨hupdok, hs4⟩ := run_command_none_inv hupd
        subst hs4
        rcases run_command_inv hck with ⟨hok, hres, hsf⟩ | ⟨hok, hres, hsf⟩ | ⟨hok, hres, hsf⟩ <;>
          subst hsf <;> subst hres
        · exact ⟨by simp_all [delta, List.drop_left, effRemoveSubmoduleDirs,
              effAddSubmodule, effUpdateSubmodule, effCheckoutLlvm, strTrim_LLVM_REPO],
            by intro a ha hne hf
               simp [delta, List.drop_left] at ha
               rcases ha with rfl | rfl | rfl | rfl <;> simp_all [delta, List.drop_left]⟩
        · exact ⟨by simp_all [delta, List.drop_left, effRemoveSubmoduleDirs,
              effAddSubmodule, effUpdateSubmodule],
            by intro a ha hne hf
               simp [delta, List.drop_left] at ha
               rcases ha with rfl | rfl | rfl | rfl <;> simp_all [delta, List.drop_left]⟩
        · exact ⟨by simp_all [delta, List.drop_left, effRemoveSubmoduleDirs,
              effAddSubmodule, effUpdateSubmodule],
            by intro a ha hne hf
               simp [delta, List.drop_left] at ha
               rcases ha with rfl | rfl | rfl | rfl <;> simp_all [delta, List.drop_left, describe]⟩
      · rcases andThen_inv h4 with ⟨s3, hadd, hupd⟩ | ⟨hadd, e2, hres2⟩
        · obtain ⟨haddok, hs3⟩ := run_command_none_inv hadd
          subst hs3
          rcases run_command_inv hupd with ⟨hok, hres2, hsf⟩ | ⟨hok, hres2, hsf⟩ | ⟨hok, hres2, hsf⟩ <;>
            subst hsf
          · exact absurd hres2 (by simp [hres])
          · exact ⟨by simp_all [delta, List.drop_left, effRemoveSubmoduleDirs, effAddSubmodule],
              by intro a ha hne hf
                 simp [delta, List.drop_left] at ha
                 rcases ha with rfl | rfl | rfl <;> simp_all [delta, List.drop_left]⟩
          · exact ⟨by simp_all [delta, List.drop_left, effRemoveSubmoduleDirs, effAddSubmodule],
              by intro a ha hne hf
                 simp [delta, List.drop_left] at ha
                 rcases ha with rfl | rfl | rfl <;> simp_all [delta, List.drop_left, describe]⟩
        · rcases run_command_inv hadd with ⟨hok, hres3, hsf⟩ | ⟨hok, hres3, hsf⟩ | ⟨hok, hres3, hsf⟩ <;>
            subst hsf
          · exact absurd hres3 (by simp [hres2])
          · exact ⟨by simp_all [delta, List.drop_left, effRemoveSubmoduleDirs],
              by intro a ha hne hf
                 simp [delta, List.drop_left] at ha
                 rcases ha with rfl | rfl <;> simp_all [delta, List.drop_left]⟩
          · exact ⟨by simp_all [delta, List.drop_left, effRemoveSubmoduleDirs],
              by intro a ha hne hf
                 simp [delta, List.drop_left] at ha
                 rcases ha with rfl | rfl <;> simp_all [delta, List.drop_left, describe]⟩

theorem commit_submodule_pointer_inv (o : Oracle) (s sf : St) (res : Option String)
    (h : commit_submodule_pointer o s = (sf, res)) :
    (sf.trace = s.trace ++ delta s sf ∧
     sf.world.linkerDirExists = s.world.linkerDirExists ∧
     sf.world.rustDirExists = s.world.rustDirExists ∧
     sf.world.submoduleCfgStdout = s.world.submoduleCfgStdout ∧
     sf.world.llvmDirExists = s.world.llvmDirExists ∧
     sf.world.submoduleBranch = s.world.submoduleBranch ∧
     sf.world.bootstrapToml = s.world.bootstrapToml ∧
     sf.world.cargoConfig = s.world.cargoConfig ∧
     delta s sf ⊆ [Act.stageSubmodule, Act.diffCached, Act.commitSubmodule] ∧
     (res = none → o .stageSubmodule = .exit true ∧ Act.diffCached ∈ delta s sf ∧
       Act.stageSubmodule ∈ delta s sf) ∧
     (res = none → o .diffCached = .exit false →
       Act.commitSubmodule ∈ delta s sf ∧
       sf.world.commits = s.world.commits ++ [commitMsg]) ∧
     (res = none → o .diffCached = .exit true →
       Act.commitSubmodule ∉ delta s sf ∧ sf.world.commits = s.world.commits) ∧
     (o .diffCached = .spawnFail → Act.diffCached ∈ delta s sf →
       res = some diffIoError) ∧
     (o .diffCached = .exit false → Act.diffCached ∈ delta s sf →
       Act.commitSubmodule ∈ delta s sf)) ∧
    (∀ a, a ∈ delta s sf → a ≠ Act.diffCached → o a = .exit false →
      res = some ("command failed: " ++ describe a) ∧
      (delta s sf).getLast? = some a) := by
  unfold commit_submodule_pointer at h
  rcases andThen_inv h with ⟨s6, h6, hd⟩ | ⟨h6, e, hres⟩
  · obtain ⟨hstage, hs6⟩ := run_command_none_inv h6
    subst hs6
    cases hdiff : o Act.diffCached with
    | spawnFail =>
      rw [hdiff] at hd
      simp only [] at hd
      rw [Prod.mk.injEq] at hd
      obtain ⟨h1, h2⟩ := hd
      subst h1; subst h2
      exact ⟨by simp_all [delta, List.drop_left],
        by intro a ha hne hf
           simp [delta, List.drop_left] at ha
           rcases ha with rfl | rfl <;> simp_all [delta, List.drop_left]⟩
    | exit diffOk =>
      rw [hdiff] at hd
      simp only [] at hd
      cases diffOk with
      | true =>
        rw [if_pos rfl] at hd
        rw [Prod.mk.injEq] at hd
        obtain ⟨h1, h2⟩ := hd
        subst h1; subst h2
        exact ⟨by simp_all [delta, List.drop_left],
          by intro a ha hne hf
             simp [delta, List.drop_left] at ha
             rcases ha with rfl | rfl <;> simp_all [delta, List.drop_left]⟩
      | false =>
        rw [if_neg (by simp)] at hd
        rcases run_command_inv hd with ⟨hok, hres, hsf⟩ | ⟨hok, hres, hsf⟩ | ⟨hok, hres, hsf⟩ <;>
          subst hsf <;> subst hres
        · exact ⟨by simp_all [delta, List.drop_left, effCommitSubmodule],
            by intro a ha hne hf
               simp [delta, List.drop_left] at ha
               rcases ha with rfl | rfl | rfl <;> simp_all [delta, List.drop_left]⟩
        · exact ⟨by simp_all [delta, List.drop_left],
            by intro a ha hne hf
               simp [delta, List.drop_left] at ha
               rcases ha with rfl | rfl | rfl <;> simp_all [delta, List.drop_left]⟩
        · exact ⟨by simp_all [delta, List.drop_left],
            by intro a ha hne hf
               simp [delta, List.drop_left] at ha
               rcases ha with rfl | rfl | rfl <;> simp_all [delta, List.drop_left, describe]⟩
  · rcases run_command_inv h6 with ⟨hok, hres2, hsf⟩ | ⟨hok, hres2, hsf⟩ | ⟨hok, hres2, hsf⟩ <;>
      subst hsf
    · exact absurd hres2 (by simp [hres])
    · exact ⟨by simp_all [delta, List.drop_left],
        by intro a ha hne hf
           simp [delta, List.drop_left] at ha
           rcases ha with rfl; simp_all [delta, List.drop_left]⟩
    · exact ⟨by simp_all [delta, List.drop_left],
        by intro a ha hne hf
           simp [delta, List.drop_left] at ha
           rcases ha with rfl; simp_all [delta, List.drop_left, describe]⟩

theorem setup_linker_inv (o : Oracle) (pr cr : String) (s sf : St)
    (res : Option String) (h : setup_linker o pr cr s = (sf, res)) :
    (sf.trace = s.trace ++ delta s sf ∧
     sf.world.rustDirExists = s.world.rustDirExists ∧
     sf.world.submoduleCfgStdout = s.world.submoduleCfgStdout ∧
     sf.world.modulesDirExists = s.world.modulesDirExists ∧
     sf.world.llvmDirExists = s.world.llvmDirExists ∧
     sf.world.submoduleBranch = s.world.submoduleBranch ∧
     sf.world.pointerDirty = s.world.pointerDirty ∧
     sf.world.commits = s.world.commits ∧
     sf.world.bootstrapToml = s.world.bootstrapToml ∧
     delta s sf ⊆ [Act.cloneLinker, Act.buildLinker] ∧
     (s.world.linkerDirExists = true → Act.cloneLinker ∉ delta s sf) ∧
     (s.world.linkerDirExists = false → o .cloneLinker = .exit false →
       res = some ("command failed: " ++ "clone sbpf-linker") ∧
       delta s sf = [Act.cloneLinker]) ∧
     (res = none → sf.world.linkerDirExists = true ∧
       o .buildLinker = .exit true ∧
       sf.world.cargoConfig = some (linkerConfigContent (linkerBin cr)) ∧
       (delta s sf = [Act.buildLinker] ∨
        delta s sf = [Act.cloneLinker, Act.buildLinker]))) ∧
    (∀ a, a ∈ delta s sf → o a = .exit false →
      res = some ("command failed: " ++ describe a) ∧
      (delta s sf).getLast? = some a) := by
  unfold setup_linker at h
  rcases andThen_inv h with ⟨s1, h1, h⟩ | ⟨h1, e, hres⟩
  · -- clone-if step succeeded
    by_cases hex : s.world.linkerDirExists = true
    · rw [if_pos hex] at h1
      rw [Prod.mk.injEq] at h1
      obtain ⟨h1a, _⟩ := h1
      subst h1a
      rcases andThen_inv h with ⟨s2, h2, h3⟩ | ⟨h2, e, hres⟩
      · obtain ⟨hbok, hs2⟩ := run_command_none_inv h2
        subst hs2
        rw [Prod.mk.injEq] at h3
        obtain ⟨h3a, h3b⟩ := h3
        subst h3a; subst h3b
        exact ⟨by simp_all [delta, List.drop_left, effWriteCargoConfig],
          by intro a ha hf
             simp [delta, List.drop_left] at ha
             rcases ha with rfl; simp_all [delta, List.drop_left]⟩
      · rcases run_command_inv h2 with ⟨hok, hres2, hsf⟩ | ⟨hok, hres2, hsf⟩ | ⟨hok, hres2, hsf⟩ <;>
          subst hsf
        · exact absurd hres2 (by simp [hres])
        · exact ⟨by simp_all [delta, List.drop_left],
            by intro a ha hf
               simp [delta, List.drop_left] at ha
               rcases ha with rfl; simp_all [delta, List.drop_left]⟩
        · exact ⟨by simp_all [delta, List.drop_left],
            by intro a ha hf
               simp [delta, List.drop_left] at ha
               rcases ha with rfl; simp_all [delta, List.drop_left, describe]⟩
    · rw [if_neg hex] at h1
      obtain ⟨hclok, hs1⟩ := run_command_none_inv h1
      subst hs1
      rcases andThen_inv h with ⟨s2, h2, h3⟩ | ⟨h2, e, hres⟩
      · obtain ⟨hbok, hs2⟩ := run_command_none_inv h2
        subst hs2
        rw [Prod.mk.injEq] at h3
        obtain ⟨h3a, h3b⟩ := h3
        subst h3a; subst h3b
        exact ⟨by simp_all [delta, List.drop_left, effWriteCargoConfig, effCloneLinker],
          by intro a ha hf
             simp [delta, List.drop_left] at ha
             rcases ha with rfl | rfl <;> simp_all [delta, List.drop_left]⟩
      · rcases run_command_inv h2 with ⟨hok, hres2, hsf⟩ | ⟨hok, hres2, hsf⟩ | ⟨hok, hres2, hsf⟩ <;>
          subst hsf
        · exact absurd hres2 (by simp [hres])
        · exact ⟨by simp_all [delta, List.drop_left, effCloneLinker],
            by intro a ha hf
               simp [delta, List.drop_left] at ha
               rcases ha with rfl | rfl <;> simp_all [delta, List.drop_left]⟩
        · exact ⟨by simp_all [delta, List.drop_left, effCloneLinker],
            by intro a ha hf
               simp [delta, List.drop_left] at ha
               rcases ha with rfl | rfl <;> simp_all [delta, List.drop_left, describe]⟩
  · -- clone-if step failed
    by_cases hex : s.world.linkerDirExists = true
    · rw [if_pos hex] at h1
      exact absurd ((congrArg Prod.snd h1).symm) (by simp [hres])
    · rw [if_neg hex] at h1
      rcases run_command_inv h1 with ⟨hok, hres2, hsf⟩ | ⟨hok, hres2, hsf⟩ | ⟨hok, hres2, hsf⟩ <;>
        subst hsf
      · exact absurd (hres2.symm.trans hres) (by simp)
      · exact ⟨by simp_all [delta, List.drop_left],
          by intro a ha hf
             simp [delta, List.drop_left] at ha
             rcases ha with rfl; simp_all [delta, List.drop_left]⟩
      · exact ⟨by simp_all [delta, List.drop_left],
          by intro a ha hf
             simp [delta, List.drop_left] at ha
             rcases ha with rfl; simp_all [delta, List.drop_left, describe]⟩

theorem delta_trans {s sm sf : St} (h1 : sm.trace = s.trace ++ delta s sm)
    (h2 : sf.trace = sm.trace ++ delta sm sf) :
    sf.trace = s.trace ++ (delta s sm ++ delta sm sf) ∧
    delta s sf = delta s sm ++ delta sm sf := by
  have ht : sf.trace = s.trace ++ (delta s sm ++ delta sm sf) := by
    rw [h2, h1, List.append_assoc]
  refine ⟨ht, ?_⟩
  rw [delta, ht, List.drop_left]

theorem bootstrap_x_step_inv {o : Oracle} {s8 s1 : St} {res : Option String}
    (h : run_command o
      (if s8.world.bootstrapToml.isSome then s8
       else { s8 with world := effWriteBootstrapToml s8.world })
      .xBuild "build rust compiler" (fun w => w) = (s1, res)) :
    s1.trace = s8.trace ++ delta s8 s1 ∧ delta s8 s1 = [Act.xBuild] ∧
    s1.world.linkerDirExists = s8.world.linkerDirExists ∧
    s1.world.rustDirExists = s8.world.rustDirExists ∧
    s1.world.submoduleCfgStdout = s8.world.submoduleCfgStdout ∧
    s1.world.llvmDirExists = s8.world.llvmDirExists ∧
    s1.world.submoduleBranch = s8.world.submoduleBranch ∧
    s1.world.commits = s8.world.commits ∧
    s1.world.cargoConfig = s8.world.cargoConfig ∧
    (s8.world.bootstrapToml.isSome = true →
      s1.world.bootstrapToml = s8.world.bootstrapToml) ∧
    (s1.world.bootstrapToml = s8.world.bootstrapToml ∨
      (s8.world.bootstrapToml = none ∧
       s1.world.bootstrapToml = some bootstrapTomlContent)) ∧
    s1.world.bootstrapToml.isSome = true ∧
    (res = none → o .xBuild = .exit true) ∧
    (res.isSome = true →
      res = some ("command failed: " ++ "build rust compiler") ∨
      res = some ("failed to run: " ++ "build rust compiler")) ∧
    (o .xBuild = .exit false →
      res = some ("command failed: " ++ "build rust compiler")) := by
  by_cases hbs : s8.world.bootstrapToml.isSome = true
  · rw [if_pos hbs] at h
    rcases run_command_inv h with ⟨hok, hres, hsf⟩ | ⟨hok, hres, hsf⟩ | ⟨hok, hres, hsf⟩ <;>
      subst hsf <;> simp_all [delta, List.drop_left]
  · rw [if_neg hbs] at h
    rcases run_command_inv h with ⟨hok, hres, hsf⟩ | ⟨hok, hres, hsf⟩ | ⟨hok, hres, hsf⟩ <;>
      subst hsf <;> simp_all [delta, List.drop_left, effWriteBootstrapToml]

set_option maxHeartbeats 1000000 in
theorem compiler_core_inv (o : Oracle) (s sf : St) (res : Option String)
    (h : compiler_core o s = (sf, res)) :
    (sf.trace = s.trace ++ delta s sf ∧
     sf.world.linkerDirExists = s.world.linkerDirExists ∧
     sf.world.rustDirExists = s.world.rustDirExists ∧
     sf.world.cargoConfig = s.world.cargoConfig ∧
     (s.world.bootstrapToml.isSome = true →
       sf.world.bootstrapToml = s.world.bootstrapToml) ∧
     (sf.world.bootstrapToml = s.world.bootstrapToml ∨
       (s.world.bootstrapToml = none ∧
        sf.world.bootstrapToml = some bootstrapTomlContent)) ∧
     delta s sf ⊆ [Act.readSubmoduleUrl, Act.addSubmodule, Act.updateSubmodule,
       Act.checkoutLlvmBranch, Act.stageSubmodule, Act.diffCached,
       Act.commitSubmodule, Act.xBuild, Act.rustupLink] ∧
     Act.readSubmoduleUrl ∈ delta s sf ∧
     (strTrim s.world.submoduleCfgStdout = LLVM_REPO →
       Act.addSubmodule ∉ delta s sf) ∧
     (o .readSubmoduleUrl ≠ .spawnFail →
       strTrim s.world.submoduleCfgStdout ≠ LLVM_REPO →
       Act.addSubmodule ∈ delta s sf) ∧
     (o .readSubmoduleUrl = .spawnFail →
       res = some "failed to get submodule url") ∧
     (res = none → strTrim sf.world.submoduleCfgStdout = LLVM_REPO ∧
       sf.world.submoduleBranch = some "BPF_i128_ret" ∧
       sf.world.llvmDirExists = true ∧
       sf.world.bootstrapToml.isSome = true ∧
       Act.xBuild ∈ delta s sf ∧
       Act.diffCached ∈ delta s sf ∧
       Act.stageSubmodule ∈ delta s sf) ∧
     (res = none → o .diffCached = .exit false →
       Act.commitSubmodule ∈ delta s sf ∧
       sf.world.commits = s.world.commits ++ [commitMsg]) ∧
     (res = none → o .diffCached = .exit true →
       Act.commitSubmodule ∉ delta s sf ∧
       sf.world.commits = s.world.commits) ∧
     (o .diffCached = .spawnFail → Act.diffCached ∈ delta s sf →
       res = some diffIoError) ∧
     (o .diffCached = .exit false → Act.diffCached ∈ delta s sf →
       Act.commitSubmodule ∈ delta s sf)) ∧
    (∀ a, a ∈ delta s sf → a ≠ Act.readSubmoduleUrl → a ≠ Act.diffCached →
      o a = .exit false →
      res = some ("command failed: " ++ describe a) ∧
      (delta s sf).getLast? = some a) := by
  unfold compiler_core at h
  rcases andThen_inv h with ⟨s5, hrec, h⟩ | ⟨hrec, e0, hres0⟩
  · -- reconcile succeeded
    obtain ⟨⟨Rt, Rld, Rrd, Rbt, Rcc, Rcm, Rpd, Rsub, Rread, Rsucc, Raddnot,
      Raddin, Rspawn⟩, Rall⟩ := reconcile_submodule_inv o s s5 none hrec
    obtain ⟨Rok1, Rok2, Rok3, Rok4⟩ := Rsucc rfl
    have hnspawn : o .readSubmoduleUrl ≠ .spawnFail := fun hsp => by
      have := (Rspawn hsp).1; simp at this
    have hsub5 : delta s s5 ⊆ [Act.readSubmoduleUrl, Act.addSubmodule,
        Act.updateSubmodule, Act.checkoutLlvmBranch, Act.stageSubmodule,
        Act.diffCached, Act.commitSubmodule, Act.xBuild, Act.rustupLink] :=
      List.Subset.trans Rsub (by decide)
    rcases andThen_inv h with ⟨s8, hcom, h⟩ | ⟨hcom, e0, hres0⟩
    · -- commit block succeeded
      obtain ⟨⟨Ct, Cld, Crd, Curl, Cllvm, Cbr, Cbt, Ccc, Csub, Cok, Cfalse,
        Ctrue, Cspawn, Cdc⟩, Call⟩ := commit_submodule_pointer_inv o s5 s8 none hcom
      obtain ⟨hT8, hD8⟩ := delta_trans Rt Ct
      have hT8n : s8.trace = s.trace ++ delta s s8 := by rw [hD8]; exact hT8
      have hsub8 : delta s5 s8 ⊆ [Act.readSubmoduleUrl, Act.addSubmodule,
          Act.updateSubmodule, Act.checkoutLlvmBranch, Act.stageSubmodule,
          Act.diffCached, Act.commitSubmodule, Act.xBuild, Act.rustupLink] :=
        List.Subset.trans Csub (by decide)
      have hdns : o Act.diffCached ≠ .spawnFail := fun hsp => by
        have := Cspawn hsp (Cok rfl).2.1
        simp at this
      rcases andThen_inv h with ⟨s10, hx, hrl⟩ | ⟨hx, e0, hres0⟩
      · -- x build ok, rustup step
        obtain ⟨Xt, XD, Xld, Xrd, Xurl, Xllvm, Xbr, Xcm, Xcc, Xbtp, Xbtd, Xbts,
          Xokn, Xsomed, Xfail⟩ := bootstrap_x_step_inv hx
        obtain ⟨hT10, hD10⟩ := delta_trans hT8n Xt
        have hT10n : s10.trace = s.trace ++ delta s s10 := by rw [hD10]; exact hT10
        have hxok : o Act.xBuild = .exit true := Xokn rfl
        have h8bt : s8.world.bootstrapToml = s.world.bootstrapToml := Cbt.trans Rbt
        rcases run_command_inv hrl with ⟨hok, hres2, hsf⟩ | ⟨hok, hres2, hsf⟩ | ⟨hok, hres2, hsf⟩ <;>
          subst hsf <;> subst hres2
        · -- rustup ok: overall success
          have hRt : ((⟨effRustupLink s10.world, s10.trace ++ [Act.rustupLink]⟩ : St)).trace =
              s10.trace ++ delta s10 (⟨effRustupLink s10.world, s10.trace ++ [Act.rustupLink]⟩ : St) := by
            simp [delta, List.drop_left]
          obtain ⟨hTf, hDf⟩ := delta_trans hT10n hRt
          have hDl : delta s10 ((⟨effRustupLink s10.world, s10.trace ++ [Act.rustupLink]⟩ : St)) = [Act.rustupLink] := by
            simp [delta, List.drop_left]
          rw [hDl, hD10, XD, hD8] at hDf
          rw [hDl, hD10, XD, hD8] at hTf
          refine ⟨⟨by rw [hDf]; exact hTf,
            by simp [effRustupLink, Xld, Cld, Rld],
            by simp [effRustupLink, Xrd, Crd, Rrd],
            by simp [effRustupLink, Xcc, Ccc, Rcc],
            ?_, ?_, ?_, ?_, ?_, ?_, ?_, ?_, ?_, ?_, ?_, ?_⟩, ?_⟩
          · intro hbs
            have h10 : s10.world.bootstrapToml = s8.world.bootstrapToml :=
              Xbtp (by rw [h8bt]; exact hbs)
            simp [effRustupLink, h10, h8bt]
          · rcases Xbtd with hbe | ⟨hbn, hbw⟩
            · exact Or.inl (by simp [effRustupLink, hbe, h8bt])
            · exact Or.inr ⟨h8bt.symm.trans hbn, by simp [effRustupLink, hbw]⟩
          · rw [hDf]
            exact List.append_subset.mpr ⟨List.append_subset.mpr
              ⟨List.append_subset.mpr ⟨hsub5, hsub8⟩, by decide⟩, by decide⟩
          · rw [hDf]
            exact List.mem_append_left _ (List.mem_append_left _
              (List.mem_append_left _ Rread))
          · intro hurl
            rw [hDf]
            intro hm
            rcases List.mem_append.mp hm with hm1 | hm2
            · rcases List.mem_append.mp hm1 with hm3 | hm4
              · rcases List.mem_append.mp hm3 with hm5 | hm6
                · exact Raddnot hurl hm5
                · have := Csub hm6; simp at this
              · simp at hm4
            · simp at hm2
          · intro hns hurl
            rw [hDf]
            exact List.mem_append_left _ (List.mem_append_left _
              (List.mem_append_left _ (Raddin hns hurl)))
          · exact fun hsp => absurd hsp hnspawn
          · intro _
            refine ⟨by simp [effRustupLink, Xurl, Curl, Rok1],
              by simp [effRustupLink, Xbr, Cbr, Rok2],
              by simp [effRustupLink, Xllvm, Cllvm, Rok3],
              by simp [effRustupLink, Xbts], ?_, ?_, ?_⟩
            · rw [hDf]
              exact List.mem_append_left _ (List.mem_append_right _ (by simp))
            · rw [hDf]
              exact List.mem_append_left _ (List.mem_append_left _
                (List.mem_append_right _ (Cok rfl).2.1))
            · rw [hDf]
              exact List.mem_append_left _ (List.mem_append_left _
                (List.mem_append_right _ (Cok rfl).2.2))
          · intro _ hdf
            obtain ⟨hcm, hcl⟩ := Cfalse rfl hdf
            refine ⟨?_, by simp [effRustupLink, Xcm, hcl, Rcm]⟩
            rw [hDf]
            exact List.mem_append_left _ (List.mem_append_left _
              (List.mem_append_right _ hcm))
          · intro _ hdt
            obtain ⟨hcm, hcl⟩ := Ctrue rfl hdt
            refine ⟨?_, by simp [effRustupLink, Xcm, hcl, Rcm]⟩
            rw [hDf]
            intro hm
            rcases List.mem_append.mp hm with hm1 | hm2
            · rcases List.mem_append.mp hm1 with hm3 | hm4
              · rcases List.mem_append.mp hm3 with hm5 | hm6
                · have := Rsub hm5; simp at this
                · exact hcm hm6
              · simp at hm4
            · simp at hm2
          · exact fun hsp _ => absurd hsp hdns
          · intro hdf _
            rw [hDf]
            exact List.mem_append_left _ (List.mem_append_left _
              (List.mem_append_right _ (Cdc hdf (Cok rfl).2.1)))
          · intro a ha h1 h2 hf
            rw [hDf] at ha
            rcases List.mem_append.mp ha with hm1 | hm2
            · rcases List.mem_append.mp hm1 with hm3 | hm4
              · rcases List.mem_append.mp hm3 with hm5 | hm6
                · exact absurd (Rall a hm5 h1 hf).1 (by simp)
                · exact absurd (Call a hm6 h2 hf).1 (by simp)
              · have hax : a = Act.xBuild := by simpa using hm4
                subst hax
                rw [hxok] at hf
                simp at hf
            · have har : a = Act.rustupLink := by simpa using hm2
              subst har
              rw [hok] at hf
              simp at hf
        · -- rustup spawn failure
          have hRt : ((⟨s10.world, s10.trace ++ [Act.rustupLink]⟩ : St)).trace =
              s10.trace ++ delta s10 (⟨s10.world, s10.trace ++ [Act.rustupLink]⟩ : St) := by
            simp [delta, List.drop_left]
          obtain ⟨hTf, hDf⟩ := delta_trans hT10n hRt
          have hDl : delta s10 ((⟨s10.world, s10.trace ++ [Act.rustupLink]⟩ : St)) = [Act.rustupLink] := by
            simp [delta, List.drop_left]
          rw [hDl, hD10, XD, hD8] at hDf
          rw [hDl, hD10, XD, hD8] at hTf
          refine ⟨⟨by rw [hDf]; exact hTf,
            by simp [Xld, Cld, Rld],
            by simp [Xrd, Crd, Rrd],
            by simp [Xcc, Ccc, Rcc],
            ?_, ?_, ?_, ?_, ?_, ?_, ?_, ?_, ?_, ?_, ?_, ?_⟩, ?_⟩
          · intro hbs
            have h10 : s10.world.bootstrapToml = s8.world.bootstrapToml :=
              Xbtp (by rw [h8bt]; exact hbs)
            simp [h10, h8bt]
          · rcases Xbtd with hbe | ⟨hbn, hbw⟩
            · exact Or.inl (by simp [hbe, h8bt])
            · exact Or.inr ⟨h8bt.symm.trans hbn, by simp [hbw]⟩
          · rw [hDf]
            exact List.append_subset.mpr ⟨List.append_subset.mpr
              ⟨List.append_subset.mpr ⟨hsub5, hsub8⟩, by decide⟩, by decide⟩
          · rw [hDf]
            exact List.mem_append_left _ (List.mem_append_left _
              (List.mem_append_left _ Rread))
          · intro hurl
            rw [hDf]
            intro hm
            rcases List.mem_append.mp hm with hm1 | hm2
            · rcases List.mem_append.mp hm1 with hm3 | hm4
              · rcases List.mem_append.mp hm3 with hm5 | hm6
                · exact Raddnot hurl hm5
                · have := Csub hm6; simp at this
              · simp at hm4
            · simp at hm2
          · intro hns hurl
            rw [hDf]
            exact List.mem_append_left _ (List.mem_append_left _
              (List.mem_append_left _ (Raddin hns hurl)))
          · exact fun hsp => absurd hsp hnspawn
          · exact fun hn => absurd hn (by simp)
          · exact fun hn => absurd hn (by simp)
          · exact fun hn => absurd hn (by simp)
          · exact fun hsp _ => absurd hsp hdns
          · intro hdf _
            rw [hDf]
            exact List.mem_append_left _ (List.mem_append_left _
              (List.mem_append_right _ (Cdc hdf (Cok rfl).2.1)))
          · intro a ha h1 h2 hf
            rw [hDf] at ha
            rcases List.mem_append.mp ha with hm1 | hm2
            · rcases List.mem_append.mp hm1 with hm3 | hm4
              · rcases List.mem_append.mp hm3 with hm5 | hm6
                · exact absurd (Rall a hm5 h1 hf).1 (by simp)
                · exact absurd (Call a hm6 h2 hf).1 (by simp)
              · have hax : a = Act.xBuild := by simpa using hm4
                subst hax
                rw [hxok] at hf
                simp at hf
            · have har : a = Act.rustupLink := by simpa using hm2
              subst har
              rw [hok] at hf
              simp at hf
        · -- rustup nonzero exit
          have hRt : ((⟨s10.world, s10.trace ++ [Act.rustupLink]⟩ : St)).trace =
              s10.trace ++ delta s10 (⟨s10.world, s10.trace ++ [Act.rustupLink]⟩ : St) := by
            simp [delta, List.drop_left]
          obtain ⟨hTf, hDf⟩ := delta_trans hT10n hRt
          have hDl : delta s10 ((⟨s10.world, s10.trace ++ [Act.rustupLink]⟩ : St)) = [Act.rustupLink] := by
            simp [delta, List.drop_left]
          rw [hDl, hD10, XD, hD8] at hDf
          rw [hDl, hD10, XD, hD8] at hTf
          refine ⟨⟨by rw [hDf]; exact hTf,
            by simp [Xld, Cld, Rld],
            by simp [Xrd, Crd, Rrd],
            by simp [Xcc, Ccc, Rcc],
            ?_, ?_, ?_, ?_, ?_, ?_, ?_, ?_, ?_, ?_, ?_, ?_⟩, ?_⟩
          · intro hbs
            have h10 : s10.world.bootstrapToml = s8.world.bootstrapToml :=
              Xbtp (by rw [h8bt]; exact hbs)
            simp [h10, h8bt]
          · rcases Xbtd with hbe | ⟨hbn, hbw⟩
            · exact Or.inl (by simp [hbe, h8bt])
            · exact Or.inr ⟨h8bt.symm.trans hbn, by simp [hbw]⟩
          · rw [hDf]
            exact List.append_subset.mpr ⟨List.append_subset.mpr
              ⟨List.append_subset.mpr ⟨hsub5, hsub8⟩, by decide⟩, by decide⟩
          · rw [hDf]
            exact List.mem_append_left _ (List.mem_append_left _
              (List.mem_append_left _ Rread))
          · intro hurl
            rw [hDf]
            intro hm
            rcases List.mem_append.mp hm with hm1 | hm2
            · rcases List.mem_append.mp hm1 with hm3 | hm4
              · rcases List.mem_append.mp hm3 with hm5 | hm6
                · exact Raddnot hurl hm5
                · have := Csub hm6; simp at this
              · simp at hm4
            · simp at hm2
          · intro hns hurl
            rw [hDf]
            exact List.mem_append_left _ (List.mem_append_left _
              (List.mem_append_left _ (Raddin hns hurl)))
          · exact fun hsp => absurd hsp hnspawn
          · exact fun hn => absurd hn (by simp)
          · exact fun hn => absurd hn (by simp)
          · exact fun hn => absurd hn (by simp)
          · exact fun hsp _ => absurd hsp hdns
          · intro hdf _
            rw [hDf]
            exact List.mem_append_left _ (List.mem_append_left _
              (List.mem_append_right _ (Cdc hdf (Cok rfl).2.1)))
          · intro a ha h1 h2 hf
            rw [hDf] at ha
            rcases List.mem_append.mp ha with hm1 | hm2
            · rcases List.mem_append.mp hm1 with hm3 | hm4
              · rcases List.mem_append.mp hm3 with hm5 | hm6
                · exact absurd (Rall a hm5 h1 hf).1 (by simp)
                · exact absurd (Call a hm6 h2 hf).1 (by simp)
              · have hax : a = Act.xBuild := by simpa using hm4
                subst hax
                rw [hxok] at hf
                simp at hf
            · have har : a = Act.rustupLink := by simpa using hm2
              subst har
              refine ⟨by simp [describe], ?_⟩
              rw [hDf]
              rw [List.getLast?_append_of_ne_nil _ (by simp)]
              simp
      · -- x build step failed
        obtain ⟨Xt, XD, Xld, Xrd, Xurl, Xllvm, Xbr, Xcm, Xcc, Xbtp, Xbtd, Xbts,
          Xokn, Xsomed, Xfail⟩ := bootstrap_x_step_inv hx
        obtain ⟨hTf, hDf⟩ := delta_trans hT8n Xt
        rw [XD, hD8] at hDf
        rw [XD, hD8] at hTf
        have h8bt : s8.world.bootstrapToml = s.world.bootstrapToml := Cbt.trans Rbt
        refine ⟨⟨by rw [hDf]; exact hTf,
          Xld.trans (Cld.trans Rld),
          Xrd.trans (Crd.trans Rrd),
          Xcc.trans (Ccc.trans Rcc),
          ?_, ?_, ?_, ?_, ?_, ?_, ?_, ?_, ?_, ?_, ?_, ?_⟩, ?_⟩
        · intro hbs
          exact (Xbtp (by rw [h8bt]; exact hbs)).trans h8bt
        · rcases Xbtd with hbe | ⟨hbn, hbw⟩
          · exact Or.inl (hbe.trans h8bt)
          · exact Or.inr ⟨h8bt.symm.trans hbn, hbw⟩
        · rw [hDf]
          exact List.append_subset.mpr ⟨List.append_subset.mpr ⟨hsub5, hsub8⟩, by decide⟩
        · rw [hDf]
          exact List.mem_append_left _ (List.mem_append_left _ Rread)
        · intro hurl
          rw [hDf]
          intro hm
          rcases List.mem_append.mp hm with hm1 | hm2
          · rcases List.mem_append.mp hm1 with hm3 | hm4
            · exact Raddnot hurl hm3
            · have := Csub hm4; simp at this
          · simp at hm2
        · intro hns hurl
          rw [hDf]
          exact List.mem_append_left _ (List.mem_append_left _ (Raddin hns hurl))
        · exact fun hsp => absurd hsp hnspawn
        · exact fun hn => absurd hn (by simp [hres0])
        · exact fun hn => absurd hn (by simp [hres0])
        · exact fun hn => absurd hn (by simp [hres0])
        · exact fun hsp _ => absurd hsp hdns
        · intro hdf _
          rw [hDf]
          exact List.mem_append_left _ (List.mem_append_right _ (Cdc hdf (Cok rfl).2.1))
        · intro a ha h1 h2 hf
          rw [hDf] at ha
          rcases List.mem_append.mp ha with hm1 | hm2
          · rcases List.mem_append.mp hm1 with hm3 | hm4
            · exact absurd (Rall a hm3 h1 hf).1 (by simp)
            · exact absurd (Call a hm4 h2 hf).1 (by simp)
          · have hax : a = Act.xBuild := by simpa using hm2
            subst hax
            refine ⟨by simpa [describe] using Xfail hf, ?_⟩
            rw [hDf]
            rw [List.getLast?_append_of_ne_nil _ (by simp)]
            simp
    · -- commit block failed
      obtain ⟨⟨Ct, Cld, Crd, Curl, Cllvm, Cbr, Cbt, Ccc, Csub, Cok, Cfalse,
        Ctrue, Cspawn, Cdc⟩, Call⟩ := commit_submodule_pointer_inv o s5 sf res hcom
      obtain ⟨hT, hD⟩ := delta_trans Rt Ct
      refine ⟨⟨by rw [hD]; exact hT,
        Cld.trans Rld,
        Crd.trans Rrd,
        Ccc.trans Rcc,
        fun _ => Cbt.trans Rbt,
        Or.inl (Cbt.trans Rbt),
        ?_, ?_, ?_, ?_, ?_, ?_, ?_, ?_, ?_, ?_⟩, ?_⟩
      · rw [hD]
        exact List.append_subset.mpr ⟨List.Subset.trans Rsub (by decide),
          List.Subset.trans Csub (by decide)⟩
      · rw [hD]
        exact List.mem_append_left _ Rread
      · intro hurl
        rw [hD]
        intro hm
        rcases List.mem_append.mp hm with hm1 | hm2
        · exact Raddnot hurl hm1
        · have := Csub hm2; simp at this
      · intro hns hurl
        rw [hD]
        exact List.mem_append_left _ (Raddin hns hurl)
      · exact fun hsp => absurd hsp hnspawn
      · exact fun hn => absurd hn (by simp [hres0])
      · exact fun hn => absurd hn (by simp [hres0])
      · exact fun hn => absurd hn (by simp [hres0])
      · intro hsp hm
        rw [hD] at hm
        rcases List.mem_append.mp hm with hm1 | hm2
        · have := Rsub hm1; simp at this
        · exact Cspawn hsp hm2
      · intro hdf hm
        rw [hD] at hm ⊢
        rcases List.mem_append.mp hm with hm1 | hm2
        · have := Rsub hm1; simp at this
        · exact List.mem_append_right _ (Cdc hdf hm2)
      · intro a ha h1 h2 hf
        rw [hD] at ha
        rcases List.mem_append.mp ha with hm1 | hm2
        · exact absurd (Rall a hm1 h1 hf).1 (by simp)
        · obtain ⟨hr, hl⟩ := Call a hm2 h2 hf
          refine ⟨hr, ?_⟩
          rw [hD, List.getLast?_append_of_ne_nil _ (List.ne_nil_of_mem hm2)]
          exact hl
  · -- reconcile failed: result is its result
    obtain ⟨⟨Rt, Rld, Rrd, Rbt, Rcc, Rcm, Rpd, Rsub, Rread, Rsucc, Raddnot,
      Raddin, Rspawn⟩, Rall⟩ := reconcile_submodule_inv o s sf res hrec
    have hdiffnot : Act.diffCached ∉ delta s sf := fun hm => by
      have := Rsub hm; simp at this
    refine ⟨⟨Rt, Rld, Rrd, Rcc, fun _ => Rbt, Or.inl Rbt,
      List.Subset.trans Rsub (by decide),
      Rread, Raddnot, Raddin, fun hsp => (Rspawn hsp).1,
      fun hn => absurd hn (by simp [hres0]),
      fun hn => absurd hn (by simp [hres0]),
      fun hn => absurd hn (by simp [hres0]),
      fun _ hm => absurd hm hdiffnot,
      fun _ hm => absurd hm hdiffnot⟩,
      fun a ha h1 h2 hf => Rall a ha h1 hf⟩

set_option maxHeartbeats 1000000 in
theorem setup_compiler_inv (o : Oracle) (cr : String) (s sf : St)
    (res : Option String) (h : setup_compiler o cr s = (sf, res)) :
    (sf.trace = s.trace ++ delta s sf ∧
     sf.world.linkerDirExists = s.world.linkerDirExists ∧
     sf.world.cargoConfig = s.world.cargoConfig ∧
     (s.world.bootstrapToml.isSome = true →
       sf.world.bootstrapToml = s.world.bootstrapToml) ∧
     (sf.world.bootstrapToml = s.world.bootstrapToml ∨
       (s.world.bootstrapToml = none ∧
        sf.world.bootstrapToml = some bootstrapTomlContent)) ∧
     delta s sf ⊆ [Act.cloneRust, Act.readSubmoduleUrl, Act.addSubmodule,
       Act.updateSubmodule, Act.checkoutLlvmBranch, Act.stageSubmodule,
       Act.diffCached, Act.commitSubmodule, Act.xBuild, Act.rustupLink] ∧
     (s.world.rustDirExists = true → Act.cloneRust ∉ delta s sf) ∧
     (s.world.rustDirExists = false → o .cloneRust = .exit false →
       res = some ("command failed: " ++ "clone rust compiler") ∧
       delta s sf = [Act.cloneRust]) ∧
     (strTrim s.world.submoduleCfgStdout = LLVM_REPO →
       Act.addSubmodule ∉ delta s sf) ∧
     (o .readSubmoduleUrl ≠ .spawnFail →
       strTrim s.world.submoduleCfgStdout ≠ LLVM_REPO →
       Act.readSubmoduleUrl ∈ delta s sf → Act.addSubmodule ∈ delta s sf) ∧
     (res = none → Act.readSubmoduleUrl ∈ delta s sf) ∧
     (o .readSubmoduleUrl = .spawnFail → Act.readSubmoduleUrl ∈ delta s sf →
       res = some "failed to get submodule url") ∧
     (res = none → sf.world.rustDirExists = true ∧
       strTrim sf.world.submoduleCfgStdout = LLVM_REPO ∧
       sf.world.submoduleBranch = some "BPF_i128_ret" ∧
       sf.world.llvmDirExists = true ∧
       sf.world.bootstrapToml.isSome = true ∧
       Act.xBuild ∈ delta s sf ∧
       Act.diffCached ∈ delta s sf ∧
       Act.stageSubmodule ∈ delta s sf) ∧
     (res = none → o .diffCached = .exit false →
       Act.commitSubmodule ∈ delta s sf ∧
       sf.world.commits = s.world.commits ++ [commitMsg]) ∧
     (res = none → o .diffCached = .exit true →
       Act.commitSubmodule ∉ delta s sf ∧
       sf.world.commits = s.world.commits) ∧
     (o .diffCached = .spawnFail → Act.diffCached ∈ delta s sf →
       res = some diffIoError) ∧
     (o .diffCached = .exit false → Act.diffCached ∈ delta s sf →
       Act.commitSubmodule ∈ delta s sf)) ∧
    (∀ a, a ∈ delta s sf → a ≠ Act.readSubmoduleUrl → a ≠ Act.diffCached →
      o a = .exit false →
      res = some ("command failed: " ++ describe a) ∧
      (delta s sf).getLast? = some a) := by
  unfold setup_compiler at h
  rcases andThen_inv h with ⟨s1, h1, h⟩ | ⟨h1, e0, hres0⟩
  · by_cases hex : s.world.rustDirExists = true
    · rw [if_pos hex] at h1
      rw [Prod.mk.injEq] at h1
      obtain ⟨h1a, _⟩ := h1
      subst h1a
      obtain ⟨⟨Kt, Kld, Krd, Kcc, Kbtp, Kbtd, Ksub, Kread, Kaddnot, Kaddin,
        Kspawn, Ksucc, Kdf, Kdt, Kdsp, Kdc⟩, Kall⟩ := compiler_core_inv o s sf res h
      refine ⟨⟨Kt, Kld, Kcc, Kbtp, Kbtd,
        List.Subset.trans Ksub (by decide),
        fun _ hm => by have := Ksub hm; simp at this,
        fun hrd => absurd hex (by simp [hrd]),
        Kaddnot, fun hns hurl _ => Kaddin hns hurl,
        fun _ => Kread,
        fun hsp _ => Kspawn hsp,
        fun hn => by
          obtain ⟨k1, k2, k3, k4, k5, k6, k7⟩ := Ksucc hn
          exact ⟨Krd.trans hex, k1, k2, k3, k4, k5, k6, k7⟩,
        Kdf, Kdt, Kdsp, Kdc⟩, Kall⟩
    · rw [if_neg hex] at h1
      obtain ⟨hclk, hs1⟩ := run_command_none_inv h1
      subst hs1
      obtain ⟨⟨Kt, Kld, Krd, Kcc, Kbtp, Kbtd, Ksub, Kread, Kaddnot, Kaddin,
        Kspawn, Ksucc, Kdf, Kdt, Kdsp, Kdc⟩, Kall⟩ := compiler_core_inv o
          ⟨effCloneRust s.world, s.trace ++ [Act.cloneRust]⟩ sf res h
      have hs1t : (⟨effCloneRust s.world, s.trace ++ [Act.cloneRust]⟩ : St).trace =
          s.trace ++ delta s ⟨effCloneRust s.world, s.trace ++ [Act.cloneRust]⟩ := by
        simp [delta, List.drop_left]
      have hs1d : delta s (⟨effCloneRust s.world, s.trace ++ [Act.cloneRust]⟩ : St) =
          [Act.cloneRust] := by
        simp [delta, List.drop_left]
      obtain ⟨hTf, hDf⟩ := delta_trans hs1t Kt
      rw [hs1d] at hTf hDf
      refine ⟨⟨by rw [hDf]; exact hTf,
        by simpa [effCloneRust] using Kld,
        by simpa [effCloneRust] using Kcc,
        ?_, ?_, ?_, ?_, ?_, ?_, ?_, ?_, ?_, ?_, ?_, ?_, ?_, ?_⟩, ?_⟩
      · intro hbs
        have := Kbtp (by simpa [effCloneRust] using hbs)
        simpa [effCloneRust] using this
      · rcases Kbtd with hbe | ⟨hbn, hbw⟩
        · exact Or.inl (by simpa [effCloneRust] using hbe)
        · exact Or.inr ⟨by simpa [effCloneRust] using hbn, hbw⟩
      · rw [hDf]
        exact List.append_subset.mpr ⟨by decide, List.Subset.trans Ksub (by decide)⟩
      · exact fun hrd => absurd hrd hex
      · exact fun _ hcl => absurd hcl (by simp [hclk])
      · intro hurl
        rw [hDf]
        intro hm
        rcases List.mem_append.mp hm with hm1 | hm2
        · simp at hm1
        · exact Kaddnot (by simpa [effCloneRust] using hurl) hm2
      · intro hns hurl _
        rw [hDf]
        exact List.mem_append_right _
          (Kaddin hns (by simpa [effCloneRust] using hurl))
      · intro _
        rw [hDf]
        exact List.mem_append_right _ Kread
      · exact fun hsp _ => Kspawn hsp
      · intro hn
        obtain ⟨k1, k2, k3, k4, k5, k6, k7⟩ := Ksucc hn
        refine ⟨by rw [Krd]; simp [effCloneRust], k1, k2, k3, k4, ?_, ?_, ?_⟩
        · rw [hDf]
          exact List.mem_append_right _ k5
        · rw [hDf]
          exact List.mem_append_right _ k6
        · rw [hDf]
          exact List.mem_append_right _ k7
      · intro hn hdf
        obtain ⟨k1, k2⟩ := Kdf hn hdf
        refine ⟨by rw [hDf]; exact List.mem_append_right _ k1, ?_⟩
        simpa [effCloneRust] using k2
      · intro hn hdt
        obtain ⟨k1, k2⟩ := Kdt hn hdt
        refine ⟨?_, by simpa [effCloneRust] using k2⟩
        rw [hDf]
        intro hm
        rcases List.mem_append.mp hm with hm1 | hm2
        · simp at hm1
        · exact k1 hm2
      · intro hsp hm
        rw [hDf] at hm
        rcases List.mem_append.mp hm with hm1 | hm2
        · simp at hm1
        · exact Kdsp hsp hm2
      · intro hdf hm
        rw [hDf] at hm ⊢
        rcases List.mem_append.mp hm with hm1 | hm2
        · simp at hm1
        · exact List.mem_append_right _ (Kdc hdf hm2)
      · intro a ha h1' h2' hf
        rw [hDf] at ha
        rcases List.mem_append.mp ha with hm1 | hm2
        · have hac : a = Act.cloneRust := by simpa using hm1
          subst hac
          rw [hclk] at hf
          simp at hf
        · obtain ⟨k1, k2⟩ := Kall a hm2 h1' h2' hf
          refine ⟨k1, ?_⟩
          rw [hDf, List.getLast?_append_of_ne_nil _ (List.ne_nil_of_mem hm2)]
          exact k2
  · by_cases hex : s.world.rustDirExists = true
    · rw [if_pos hex] at h1
      exact absurd ((congrArg Prod.snd h1).symm) (by simp [hres0])
    · rw [if_neg hex] at h1
      rcases run_command_inv h1 with ⟨hok, hres2, hsf⟩ | ⟨hok, hres2, hsf⟩ | ⟨hok, hres2, hsf⟩ <;>
        subst hsf
      · exact absurd (hres2.symm.trans hres0) (by simp)
      · subst hres2
        refine ⟨⟨by simp [delta, List.drop_left], rfl, rfl, fun _ => rfl, Or.inl rfl,
          by simp [delta, List.drop_left],
          fun hrd => absurd hrd hex,
          fun _ hcl => absurd hcl (by simp [hok]),
          fun _ => by simp [delta, List.drop_left],
          fun _ _ hm => absurd hm (by simp [delta, List.drop_left]),
          fun hn => by simp at hn,
          fun _ hm => absurd hm (by simp [delta, List.drop_left]),
          fun hn => by simp at hn,
          fun hn => by simp at hn,
          fun hn => by simp at hn,
          fun _ hm => absurd hm (by simp [delta, List.drop_left]),
          fun _ hm => absurd hm (by simp [delta, List.drop_left])⟩, ?_⟩
        intro a ha h1' h2' hf
        simp [delta, List.drop_left] at ha
        subst ha
        rw [hok] at hf
        simp at hf
      · subst hres2
        refine ⟨⟨by simp [delta, List.drop_left], rfl, rfl, fun _ => rfl, Or.inl rfl,
          by simp [delta, List.drop_left],
          fun hrd => absurd hrd hex,
          fun _ _ => ⟨rfl, by simp [delta, List.drop_left]⟩,
          fun _ hm => absurd hm (by simp [delta, List.drop_left]),
          fun _ _ hm => absurd hm (by simp [delta, List.drop_left]),
          fun hn => by simp at hn,
          fun _ hm => absurd hm (by simp [delta, List.drop_left]),
          fun hn => by simp at hn,
          fun hn => by simp at hn,
          fun hn => by simp at hn,
          fun _ hm => absurd hm (by simp [delta, List.drop_left]),
          fun _ hm => absurd hm (by simp [delta, List.drop_left])⟩, ?_⟩
        intro a ha h1' h2' hf
        simp [delta, List.drop_left] at ha
        subst ha
        refine ⟨by simp [describe], by simp [delta, List.drop_left]⟩

set_option maxRecDepth 8000

/-- Injectivity of the linker-config template in the embedded binary
path: two template instances are equal only if the embedded paths are. -/
theorem linkerConfigContent_inj {x y : String}
    (h : linkerConfigContent x = linkerConfigContent y) : x = y := by
  unfold linkerConfigContent at h
  have hd := congrArg String.data h
  rw [String.data_append, String.data_append, String.data_append,
    String.data_append] at hd
  exact String.ext (List.append_cancel_left (List.append_cancel_right hd))

/-- Evaluation of a full setup run in an already-bootstrapped world
under an oracle that makes every external command succeed: both clone
checks skip, the URL check takes the skip branch, the diff reports no
staged change so no commit is made, and the bootstrap config is not
rewritten. -/
theorem setup_all_ok (o : Oracle) (pr cr : String) (w : World)
    (ho : ∀ a, o a = .exit true)
    (hld : w.linkerDirExists = true) (hrd : w.rustDirExists = true)
    (hurl : strTrim w.submoduleCfgStdout = LLVM_REPO)
    (hbt : w.bootstrapToml.isSome = true) :
    setup o pr cr ⟨w, []⟩ =
      (⟨{ w with
            cargoConfig := some (linkerConfigContent (linkerBin cr)),
            llvmDirExists := true,
            submoduleBranch := some "BPF_i128_ret",
            toolchainLinked := true },
        [Act.buildLinker, Act.readSubmoduleUrl, Act.updateSubmodule,
         Act.checkoutLlvmBranch, Act.stageSubmodule, Act.diffCached,
         Act.xBuild, Act.rustupLink]⟩, none) := by
  simp [setup, setup_linker, setup_compiler, compiler_core, reconcile_submodule,
    commit_submodule_pointer, get_submodule_url, run_command, andThen,
    ho, hld, hrd, hurl, hbt, effWriteCargoConfig, effUpdateSubmodule,
    effCheckoutLlvm, effRustupLink]

/-- An oracle under which every external command succeeds. -/
def oAllOk : Oracle := fun _ => .exit true

/-- A world in which a first full setup already completed: both
checkouts exist, the submodule already points at the fork, and
`bootstrap.toml` is present. -/
def wGood : World :=
  { linkerDirExists := true, rustDirExists := true,
    submoduleCfgStdout := LLVM_REPO, modulesDirExists := true,
    llvmDirExists := true, submoduleBranch := some "BPF_i128_ret",
    pointerDirty := false, commits := [],
    bootstrapToml := some bootstrapTomlContent, cargoConfig := none,
    toolchainLinked := false }

/-- A pristine world: nothing cloned, no configs, no submodule entry. -/
def wFresh : World :=
  { linkerDirExists := false, rustDirExists := false,
    submoduleCfgStdout := "", modulesDirExists := false,
    llvmDirExists := false, submoduleBranch := none,
    pointerDirty := true, commits := [], bootstrapToml := none,
    cargoConfig := none, toolchainLinked := false }

/-- An oracle under which only the staged-diff check exits nonzero. -/
def oDiffFail : Oracle := fun a =>
  if a = Act.diffCached then .exit false else .exit true

/-- An oracle under which only the submodule-url read exits nonzero. -/
def oUrlReadFail : Oracle := fun a =>
  if a = Act.readSubmoduleUrl then .exit false else .exit true

def s1Good : St :=
  ⟨{ wGood with
       cargoConfig := some (linkerConfigContent (linkerBin "/c")),
       llvmDirExists := true,
       submoduleBranch := some "BPF_i128_ret",
       toolchainLinked := true },
   [Act.buildLinker, Act.readSubmoduleUrl, Act.updateSubmodule,
    Act.checkoutLlvmBranch, Act.stageSubmodule, Act.diffCached,
    Act.xBuild, Act.rustupLink]⟩

/-- Claim C1: after a successful full-setup run, a second full-setup run
from the resulting world (with no external changes, all commands
succeeding) performs no destructive action: neither repository is
re-cloned, the submodule is not torn down and re-added, the compiler
bootstrap config is not overwritten, and the run succeeds. -/
theorem claim_C1 (o1 o2 : Oracle) (pr cr : String) (w : World) (s1 : St)
    (h1 : setup o1 pr cr ⟨w, []⟩ = (s1, none))
    (h2 : ∀ a, o2 a = .exit true) :
    ∃ s2, setup o2 pr cr ⟨s1.world, []⟩ = (s2, none) ∧
      Act.cloneLinker ∉ s2.trace ∧ Act.cloneRust ∉ s2.trace ∧
      Act.addSubmodule ∉ s2.trace ∧
      s2.world.bootstrapToml = s1.world.bootstrapToml := by
  unfold setup at h1
  obtain ⟨sl, hl, hc⟩ := andThen_none_inv h1
  obtain ⟨⟨_, _, _, _, _, _, _, _, _, _, _, _, Lsucc⟩, _⟩ :=
    setup_linker_inv o1 pr cr ⟨w, []⟩ sl none hl
  obtain ⟨⟨_, Kld, _, _, _, _, _, _, _, _, _, _, Ksucc, _, _, _, _⟩, _⟩ :=
    setup_compiler_inv o1 cr sl s1 none hc
  obtain ⟨Krd, Kurl, _, _, Kbts, _, _, _⟩ := Ksucc rfl
  have hld : s1.world.linkerDirExists = true := Kld.trans (Lsucc rfl).1
  refine ⟨_, setup_all_ok o2 pr cr s1.world h2 hld Krd Kurl Kbts,
    (by decide : Act.cloneLinker ∉ [Act.buildLinker, Act.readSubmoduleUrl,
      Act.updateSubmodule, Act.checkoutLlvmBranch, Act.stageSubmodule,
      Act.diffCached, Act.xBuild, Act.rustupLink]),
    (by decide : Act.cloneRust ∉ [Act.buildLinker, Act.readSubmoduleUrl,
      Act.updateSubmodule, Act.checkoutLlvmBranch, Act.stageSubmodule,
      Act.diffCached, Act.xBuild, Act.rustupLink]),
    (by decide : Act.addSubmodule ∉ [Act.buildLinker, Act.readSubmoduleUrl,
      Act.updateSubmodule, Act.checkoutLlvmBranch, Act.stageSubmodule,
      Act.diffCached, Act.xBuild, Act.rustupLink]), rfl⟩

theorem claim_C1_witness :
    ∃ s2, setup oAllOk "/p" "/c" ⟨s1Good.world, []⟩ = (s2, none) ∧
      Act.cloneLinker ∉ s2.trace ∧ Act.cloneRust ∉ s2.trace ∧
      Act.addSubmodule ∉ s2.trace ∧
      s2.world.bootstrapToml = s1Good.world.bootstrapToml :=
  claim_C1 oAllOk oAllOk "/p" "/c" wGood s1Good
    (setup_all_ok oAllOk "/p" "/c" wGood (fun _ => rfl) rfl rfl
      strTrim_LLVM_REPO rfl)
    (fun _ => rfl)

/-- a world whose submodule URL points at default upstream LLVM (state B) -/
def wUpstream : World :=
  { wGood with submoduleCfgStdout := "https://github.com/llvm/llvm-project.git" }

/-- the state reached by reconciling `wUpstream` when every command succeeds -/
def sReconciled : St :=
  ⟨{ wUpstream with
       submoduleCfgStdout := LLVM_REPO,
       modulesDirExists := true,
       llvmDirExists := true,
       submoduleBranch := some "BPF_i128_ret" },
   [Act.readSubmoduleUrl, Act.addSubmodule, Act.updateSubmodule,
    Act.checkoutLlvmBranch]⟩

/-- Claim C2: whatever URL the LLVM submodule starts with, a successful
reconciliation ends with the configured URL equal to the required fork
URL and the working tree on the required branch, thanks to the
unconditional branch-checkout step. -/
theorem claim_C2 (o : Oracle) (s sf : St)
    (h : reconcile_submodule o s = (sf, none)) :
    strTrim sf.world.submoduleCfgStdout = LLVM_REPO ∧
    sf.world.submoduleBranch = some "BPF_i128_ret" := by
  obtain ⟨⟨_, _, _, _, _, _, _, _, _, Rsucc, _, _, _⟩, _⟩ :=
    reconcile_submodule_inv o s sf none h
  exact ⟨(Rsucc rfl).1, (Rsucc rfl).2.1⟩

theorem claim_C2_witness :
    strTrim sReconciled.world.submoduleCfgStdout = LLVM_REPO ∧
    sReconciled.world.submoduleBranch = some "BPF_i128_ret" :=
  claim_C2 oAllOk ⟨wUpstream, []⟩ sReconciled (by decide)

def oXFail : Oracle := fun a =>
  if a = Act.xBuild then .exit false else .exit true

/-- Claim C3 counterexample: the claim "every invoked external command
that exits nonzero halts the pipeline with a nonzero process exit" is
false as stated: when git diff --cached --quiet exits nonzero (its
normal signal that a staged diff exists), the pipeline continues — the
commit and the remaining stages are invoked and the run exits zero. -/
theorem claim_C3_counterexample :
    oDiffFail .diffCached = .exit false ∧
    Act.diffCached ∈ (setup oDiffFail "/p" "/c" ⟨wGood, []⟩).1.trace ∧
    Act.commitSubmodule ∈ (setup oDiffFail "/p" "/c" ⟨wGood, []⟩).1.trace ∧
    (setup oDiffFail "/p" "/c" ⟨wGood, []⟩).2 = none := by
  decide

/-- Claim C3 (amended): every external command routed through the
fail-loudly runner run_command that exits nonzero halts the pipeline
immediately: the run returns the labeled fatal error naming the
attempted action, and the failing command is the last one invoked; the
submodule-url read and the staged-diff check are the two exempt direct
invocations. -/
theorem claim_C3_amended (o : Oracle) (pr cr : String) (w : World) (a : Act)
    (ha : a ∈ (setup o pr cr ⟨w, []⟩).1.trace)
    (h1 : a ≠ Act.readSubmoduleUrl) (h2 : a ≠ Act.diffCached)
    (hf : o a = .exit false) :
    (setup o pr cr ⟨w, []⟩).2 = some ("command failed: " ++ describe a) ∧
    (setup o pr cr ⟨w, []⟩).1.trace.getLast? = some a := by
  obtain ⟨sf, res, hr⟩ : ∃ sf res, setup o pr cr ⟨w, []⟩ = (sf, res) :=
    ⟨_, _, rfl⟩
  rw [hr] at ha ⊢
  have hr' := hr
  unfold setup at hr'
  rcases andThen_inv hr' with ⟨sl, hl, hc⟩ | ⟨hl, e0, hres0⟩
  · obtain ⟨⟨Lt, _, _, _, _, _, _, _, _, _, _, _, _⟩, Lall⟩ :=
      setup_linker_inv o pr cr ⟨w, []⟩ sl none hl
    obtain ⟨⟨Kt, _, _, _, _, _, _, _, _, _, _, _, _, _, _, _, _⟩, Kall⟩ :=
      setup_compiler_inv o cr sl sf res hc
    have ha' : a ∈ sf.trace := ha
    rw [Kt] at ha'
    rcases List.mem_append.mp ha' with hm1 | hm2
    · have hm1' : a ∈ delta ⟨w, []⟩ sl := hm1
      exact absurd (Lall a hm1' hf).1 (by simp)
    · obtain ⟨k1, k2⟩ := Kall a hm2 h1 h2 hf
      refine ⟨k1, ?_⟩
      show sf.trace.getLast? = some a
      rw [Kt, List.getLast?_append_of_ne_nil _ (List.ne_nil_of_mem hm2)]
      exact k2
  · obtain ⟨⟨Lt, _, _, _, _, _, _, _, _, _, _, _, _⟩, Lall⟩ :=
      setup_linker_inv o pr cr ⟨w, []⟩ sf res hl
    have ha' : a ∈ delta ⟨w, []⟩ sf := ha
    obtain ⟨k1, k2⟩ := Lall a ha' hf
    exact ⟨k1, k2⟩

theorem claim_C3_witness :
    (setup oXFail "/p" "/c" ⟨wGood, []⟩).2 =
      some ("command failed: " ++ describe Act.xBuild) ∧
    (setup oXFail "/p" "/c" ⟨wGood, []⟩).1.trace.getLast? = some Act.xBuild :=
  claim_C3_amended oXFail "/p" "/c" wGood Act.xBuild (by decide) (by decide)
    (by decide) (by decide)

/-- Claim C4: in a full setup run, the compiler build (./x build) is
invoked only after the linker build (cargo build of the linker)
completed successfully: if ./x build appears in the trace, the linker
build exited zero and precedes it in the trace. -/
theorem claim_C4 (o : Oracle) (pr cr : String) (w : World)
    (hx : Act.xBuild ∈ (setup o pr cr ⟨w, []⟩).1.trace) :
    o .buildLinker = .exit true ∧
    ∃ t1 t2, (setup o pr cr ⟨w, []⟩).1.trace = t1 ++ Act.buildLinker :: t2 ∧
      Act.xBuild ∉ t1 ∧ Act.xBuild ∈ t2 := by
  obtain ⟨sf, res, hr⟩ : ∃ sf res, setup o pr cr ⟨w, []⟩ = (sf, res) :=
    ⟨_, _, rfl⟩
  rw [hr] at hx ⊢
  have hx' : Act.xBuild ∈ sf.trace := hx
  have hr' := hr
  unfold setup at hr'
  rcases andThen_inv hr' with ⟨sl, hl, hc⟩ | ⟨hl, e0, hres0⟩
  · obtain ⟨⟨Lt, _, _, _, _, _, _, _, _, Lsub, _, _, Lsucc⟩, _⟩ :=
      setup_linker_inv o pr cr ⟨w, []⟩ sl none hl
    obtain ⟨⟨Kt, _, _, _, _, _, _, _, _, _, _, _, _, _, _, _, _⟩, _⟩ :=
      setup_compiler_inv o cr sl sf res hc
    rw [Kt] at hx'
    rcases List.mem_append.mp hx' with hm1 | hm2
    · have := Lsub (show Act.xBuild ∈ delta ⟨w, []⟩ sl from hm1)
      simp at this
    · obtain ⟨hld, hbok, hcc, hshape⟩ := Lsucc rfl
      refine ⟨hbok, ?_⟩
      have hslt : sl.trace = delta ⟨w, []⟩ sl := rfl
      rcases hshape with hs | hs
      · refine ⟨[], delta sl sf, ?_, by simp, hm2⟩
        show sf.trace = [] ++ Act.buildLinker :: delta sl sf
        rw [Kt, hslt, hs]
        simp
      · refine ⟨[Act.cloneLinker], delta sl sf, ?_, by decide, hm2⟩
        show sf.trace = [Act.cloneLinker] ++ Act.buildLinker :: delta sl sf
        rw [Kt, hslt, hs]
        simp
  · obtain ⟨⟨_, _, _, _, _, _, _, _, _, Lsub, _, _, _⟩, _⟩ :=
      setup_linker_inv o pr cr ⟨w, []⟩ sf res hl
    have := Lsub (show Act.xBuild ∈ delta ⟨w, []⟩ sf from hx')
    simp at this

theorem claim_C4_witness :
    oAllOk .buildLinker = .exit true ∧
    ∃ t1 t2, (setup oAllOk "/p" "/c" ⟨wFresh, []⟩).1.trace =
        t1 ++ Act.buildLinker :: t2 ∧
      Act.xBuild ∉ t1 ∧ Act.xBuild ∈ t2 :=
  claim_C4 oAllOk "/p" "/c" wFresh (by decide)

/-- Claim C5: every successful linker-stage run overwrites the linker
wiring config with the fixed template embedding that run\u0027s linker
binary path; over two successive runs whose computed paths differ, the
emitted file holds the most recent path and not the stale one. -/
theorem claim_C5 (o1 o2 : Oracle) (pr c1 c2 : String) (s s1 s2 : St)
    (h1 : setup_linker o1 pr c1 s = (s1, none))
    (h2 : setup_linker o2 pr c2 s1 = (s2, none))
    (hdiff : linkerBin c1 ≠ linkerBin c2) :
    s1.world.cargoConfig = some (linkerConfigContent (linkerBin c1)) ∧
    s2.world.cargoConfig = some (linkerConfigContent (linkerBin c2)) ∧
    s2.world.cargoConfig ≠ some (linkerConfigContent (linkerBin c1)) := by
  obtain ⟨⟨_, _, _, _, _, _, _, _, _, _, _, _, L1succ⟩, _⟩ :=
    setup_linker_inv o1 pr c1 s s1 none h1
  obtain ⟨⟨_, _, _, _, _, _, _, _, _, _, _, _, L2succ⟩, _⟩ :=
    setup_linker_inv o2 pr c2 s1 s2 none h2
  refine ⟨(L1succ rfl).2.2.1, (L2succ rfl).2.2.1, ?_⟩
  rw [(L2succ rfl).2.2.1]
  intro hcontra
  rw [Option.some.injEq] at hcontra
  exact hdiff (linkerConfigContent_inj hcontra).symm

theorem claim_C5_witness :
    (⟨{ wGood with cargoConfig := some (linkerConfigContent (linkerBin "/a")) },
       [Act.buildLinker]⟩ : St).world.cargoConfig =
      some (linkerConfigContent (linkerBin "/a")) ∧
    (⟨{ wGood with cargoConfig := some (linkerConfigContent (linkerBin "/b")) },
       [Act.buildLinker, Act.buildLinker]⟩ : St).world.cargoConfig =
      some (linkerConfigContent (linkerBin "/b")) ∧
    (⟨{ wGood with cargoConfig := some (linkerConfigContent (linkerBin "/b")) },
       [Act.buildLinker, Act.buildLinker]⟩ : St).world.cargoConfig ≠
      some (linkerConfigContent (linkerBin "/a")) :=
  claim_C5 oAllOk oAllOk "/p" "/a" "/b" ⟨wGood, []⟩ _ _
    (by decide) (by decide) (by decide)

/-- Claim C6: the compiler bootstrap configuration file is preserved
byte-for-byte by every run when it exists beforehand, and it is written
(with the fixed bootstrap options) only when absent. -/
theorem claim_C6 (o : Oracle) (pr cr : String) (w : World) :
    (∀ c, w.bootstrapToml = some c →
      (setup o pr cr ⟨w, []⟩).1.world.bootstrapToml = some c) ∧
    ((setup o pr cr ⟨w, []⟩).1.world.bootstrapToml = w.bootstrapToml ∨
      (w.bootstrapToml = none ∧
       (setup o pr cr ⟨w, []⟩).1.world.bootstrapToml =
         some bootstrapTomlContent)) := by
  obtain ⟨sf, res, hr⟩ : ∃ sf res, setup o pr cr ⟨w, []⟩ = (sf, res) :=
    ⟨_, _, rfl⟩
  rw [hr]
  have hr' := hr
  unfold setup at hr'
  rcases andThen_inv hr' with ⟨sl, hl, hc⟩ | ⟨hl, e0, hres0⟩
  · obtain ⟨⟨_, _, _, _, _, _, _, _, Lbt, _, _, _, _⟩, _⟩ :=
      setup_linker_inv o pr cr ⟨w, []⟩ sl none hl
    obtain ⟨⟨_, _, _, Kbtp, Kbtd, _, _, _, _, _, _, _, _, _, _, _, _⟩, _⟩ :=
      setup_compiler_inv o cr sl sf res hc
    have hLbt : sl.world.bootstrapToml = w.bootstrapToml := Lbt
    constructor
    · intro c hcw
      have hsl : sl.world.bootstrapToml = some c := by rw [hLbt]; exact hcw
      have hps : sf.world.bootstrapToml = sl.world.bootstrapToml :=
        Kbtp (by simp [hsl])
      show sf.world.bootstrapToml = some c
      rw [hps, hsl]
    · rcases Kbtd with hbe | ⟨hbn, hbw⟩
      · exact Or.inl (show sf.world.bootstrapToml = w.bootstrapToml from
          hbe.trans hLbt)
      · exact Or.inr ⟨hLbt.symm.trans hbn, hbw⟩
  · obtain ⟨⟨_, _, _, _, _, _, _, _, Lbt, _, _, _, _⟩, _⟩ :=
      setup_linker_inv o pr cr ⟨w, []⟩ sf res hl
    have hLbt : sf.world.bootstrapToml = w.bootstrapToml := Lbt
    exact ⟨fun c hcw => by
        show sf.world.bootstrapToml = some c
        rw [hLbt]; exact hcw,
      Or.inl hLbt⟩

theorem claim_C6_witness :
    (setup oAllOk "/p" "/c" ⟨wGood, []⟩).1.world.bootstrapToml =
      some bootstrapTomlContent ∧
    ((setup oAllOk "/p" "/c" ⟨wGood, []⟩).1.world.bootstrapToml =
        wGood.bootstrapToml ∨
      (wGood.bootstrapToml = none ∧
       (setup oAllOk "/p" "/c" ⟨wGood, []⟩).1.world.bootstrapToml =
         some bootstrapTomlContent)) :=
  ⟨(claim_C6 oAllOk "/p" "/c" wGood).1 bootstrapTomlContent rfl,
   (claim_C6 oAllOk "/p" "/c" wGood).2⟩

def oCloneFail : Oracle := fun a =>
  if a = Act.cloneLinker then .exit false
  else if a = Act.cloneRust then .exit false else .exit true

/-- Claim C7: the repository synchronizer is a no-op treated as success
when the target directory exists (no clone invoked, no verification of
the existing checkout), performs a branch-restricted clone when absent,
and surfaces a nonzero clone exit as the labeled fatal clone error. -/
theorem claim_C7 (o : Oracle) (pr cr : String) (w : World) :
    (w.linkerDirExists = true →
      Act.cloneLinker ∉ (setup_linker o pr cr ⟨w, []⟩).1.trace) ∧
    (w.rustDirExists = true →
      Act.cloneRust ∉ (setup_compiler o cr ⟨w, []⟩).1.trace) ∧
    (w.linkerDirExists = false → o .cloneLinker = .exit false →
      (setup_linker o pr cr ⟨w, []⟩).2 =
        some ("command failed: " ++ "clone sbpf-linker")) ∧
    (w.rustDirExists = false → o .cloneRust = .exit false →
      (setup_compiler o cr ⟨w, []⟩).2 =
        some ("command failed: " ++ "clone rust compiler")) ∧
    cmdOf pr cr .cloneLinker =
      ⟨"git", ["clone", "--branch", LINKER_BRANCH, LINKER_REPO, linkerDir cr],
        none⟩ ∧
    cmdOf pr cr .cloneRust =
      ⟨"git", ["clone", "--branch", RUST_BRANCH, RUST_REPO, rustDir cr],
        none⟩ := by
  obtain ⟨sfl, resl, hrl⟩ : ∃ sfl resl,
      setup_linker o pr cr ⟨w, []⟩ = (sfl, resl) := ⟨_, _, rfl⟩
  obtain ⟨sfc, resc, hrc⟩ : ∃ sfc resc,
      setup_compiler o cr ⟨w, []⟩ = (sfc, resc) := ⟨_, _, rfl⟩
  obtain ⟨⟨_, _, _, _, _, _, _, _, _, _, Lskip, Lfail, _⟩, _⟩ :=
    setup_linker_inv o pr cr ⟨w, []⟩ sfl resl hrl
  obtain ⟨⟨_, _, _, _, _, _, Kcl1, Kcl2, _, _, _, _, _, _, _, _, _⟩, _⟩ :=
    setup_compiler_inv o cr ⟨w, []⟩ sfc resc hrc
  rw [hrl, hrc]
  exact ⟨fun hex => Lskip hex, fun hex => Kcl1 hex,
    fun hex hcf => (Lfail hex hcf).1, fun hex hcf => (Kcl2 hex hcf).1,
    rfl, rfl⟩

theorem claim_C7_witness :
    Act.cloneLinker ∉ (setup_linker oAllOk "/p" "/c" ⟨wGood, []⟩).1.trace ∧
    Act.cloneRust ∉ (setup_compiler oAllOk "/c" ⟨wGood, []⟩).1.trace ∧
    (setup_linker oCloneFail "/p" "/c" ⟨wFresh, []⟩).2 =
      some ("command failed: " ++ "clone sbpf-linker") ∧
    (setup_compiler oCloneFail "/c" ⟨wFresh, []⟩).2 =
      some ("command failed: " ++ "clone rust compiler") :=
  ⟨(claim_C7 oAllOk "/p" "/c" wGood).1 rfl,
   (claim_C7 oAllOk "/p" "/c" wGood).2.1 rfl,
   (claim_C7 oCloneFail "/p" "/c" wFresh).2.2.1 rfl (by decide),
   (claim_C7 oCloneFail "/p" "/c" wFresh).2.2.2.1 rfl (by decide)⟩

/-- the state reached by `setup_compiler` from `wGood` under `oDiffFail` -/
def sAfterCommit : St :=
  ⟨{ wGood with
       llvmDirExists := true,
       submoduleBranch := some "BPF_i128_ret",
       pointerDirty := false,
       commits := [commitMsg],
       toolchainLinked := true },
   [Act.readSubmoduleUrl, Act.updateSubmodule, Act.checkoutLlvmBranch,
    Act.stageSubmodule, Act.diffCached, Act.commitSubmodule, Act.xBuild,
    Act.rustupLink]⟩

/-- Claim C8: after reconciliation the submodule pointer is staged, and
a commit (with the fixed marker message) is created if and only if the
dry-run diff against the index reports an effective difference; with no
staged diff no commit is made and the stage still succeeds. -/
theorem claim_C8 (o : Oracle) (cr : String) (w : World) (sf : St)
    (h : setup_compiler o cr ⟨w, []⟩ = (sf, none)) :
    Act.stageSubmodule ∈ sf.trace ∧
    (Act.commitSubmodule ∈ sf.trace ↔ o .diffCached = .exit false) ∧
    (o .diffCached = .exit false →
      sf.world.commits = w.commits ++ [commitMsg]) ∧
    (o .diffCached = .exit true → sf.world.commits = w.commits) := by
  obtain ⟨⟨Kt, Kld, Kcc, Kbtp, Kbtd, Ksub, Kcl1, Kcl2, Kaddnot, Kaddin, Kread,
    Kspawn, Ksucc, Kdf, Kdt, Kdsp, Kdc⟩, Kall⟩ :=
    setup_compiler_inv o cr ⟨w, []⟩ sf none h
  obtain ⟨Krd, Kurl, Kbr, Kllvm, Kbts, Kxm, Kdm, Ksm⟩ := Ksucc rfl
  refine ⟨Ksm, ⟨?_, ?_⟩, ?_, ?_⟩
  · intro hcm
    cases hd : o Act.diffCached with
    | spawnFail => exact absurd (Kdsp hd Kdm) (by simp)
    | exit b =>
      cases b with
      | false => rfl
      | true => exact absurd hcm (Kdt rfl hd).1
  · intro hd
    exact (Kdf rfl hd).1
  · intro hd
    exact (Kdf rfl hd).2
  · intro hd
    exact (Kdt rfl hd).2

theorem claim_C8_witness :
    Act.stageSubmodule ∈ sAfterCommit.trace ∧
    (Act.commitSubmodule ∈ sAfterCommit.trace ↔
      oDiffFail .diffCached = .exit false) ∧
    (oDiffFail .diffCached = .exit false →
      sAfterCommit.world.commits = wGood.commits ++ [commitMsg]) ∧
    (oDiffFail .diffCached = .exit true →
      sAfterCommit.world.commits = wGood.commits) :=
  claim_C8 oDiffFail "/c" wGood sAfterCommit (by decide)

/-- a world whose `.gitmodules` has no entry for the submodule: the URL
read comes back empty -/
def wNoEntry : World := { wGood with submoduleCfgStdout := "" }

/-- Claim C9: get_submodule_url never fails on a nonzero exit of the git
config invocation — it returns the trimmed standard output regardless of
exit status — so a checkout with no submodule entry yields the empty
string, which the reconciler treats as an incorrect URL and routes to
the teardown-and-re-add branch rather than reporting an error. -/
theorem claim_C9 (o : Oracle) (s sf : St) (res : Option String) (b : Bool)
    (hb : o .readSubmoduleUrl = .exit b)
    (hurl : s.world.submoduleCfgStdout = "")
    (hrec : reconcile_submodule o s = (sf, res)) :
    (get_submodule_url o s).2 = .ok "" ∧ Act.addSubmodule ∈ delta s sf := by
  constructor
  · simp only [get_submodule_url, hb]
    rw [hurl]
    rfl
  · obtain ⟨⟨_, _, _, _, _, _, _, _, _, _, _, Raddin, _⟩, _⟩ :=
      reconcile_submodule_inv o s sf res hrec
    exact Raddin (by simp [hb]) (by rw [hurl]; decide)

theorem claim_C9_witness :
    (get_submodule_url oUrlReadFail ⟨wNoEntry, []⟩).2 = .ok "" ∧
    Act.addSubmodule ∈ delta ⟨wNoEntry, []⟩
      ⟨{ wNoEntry with
           submoduleCfgStdout := LLVM_REPO,
           modulesDirExists := true,
           llvmDirExists := true,
           submoduleBranch := some "BPF_i128_ret" },
       [Act.readSubmoduleUrl, Act.addSubmodule, Act.updateSubmodule,
        Act.checkoutLlvmBranch]⟩ :=
  claim_C9 oUrlReadFail ⟨wNoEntry, []⟩ _ none false (by decide) (by decide)
    (by decide)

/-- Claim C10 (amended): the staged-diff check is not routed through the
fail-loudly runner: a nonzero exit of git diff --cached --quiet does not
abort the run and instead causes the commit attempt to proceed, and only
an inability to spawn the command is propagated as an error. -/
theorem claim_C10_amended (o : Oracle) (cr : String) (w : World) (sf : St)
    (res : Option String) (h : setup_compiler o cr ⟨w, []⟩ = (sf, res)) :
    (o .diffCached = .exit false → Act.diffCached ∈ sf.trace →
      Act.commitSubmodule ∈ sf.trace) ∧
    (o .diffCached = .spawnFail → Act.diffCached ∈ sf.trace →
      res = some diffIoError) := by
  obtain ⟨⟨Kt, Kld, Kcc, Kbtp, Kbtd, Ksub, Kcl1, Kcl2, Kaddnot, Kaddin, Kread,
    Kspawn, Ksucc, Kdf, Kdt, Kdsp, Kdc⟩, Kall⟩ :=
    setup_compiler_inv o cr ⟨w, []⟩ sf res h
  exact ⟨fun hd hm => Kdc hd hm, fun hd hm => Kdsp hd hm⟩

theorem claim_C10_witness :
    (oDiffFail .diffCached = .exit false →
      Act.diffCached ∈ sAfterCommit.trace →
      Act.commitSubmodule ∈ sAfterCommit.trace) ∧
    (oDiffFail .diffCached = .spawnFail →
      Act.diffCached ∈ sAfterCommit.trace → none = some diffIoError) :=
  claim_C10_amended oDiffFail "/c" wGood sAfterCommit none (by decide)

/-- Claim C10 counterexample: the staged-diff check is NOT the only
external process invocation outside the fail-loudly runner: the
submodule-url read also ignores a nonzero exit — here it exits nonzero
and the run still completes successfully. -/
theorem claim_C10_counterexample :
    oUrlReadFail .readSubmoduleUrl = .exit false ∧
    Act.readSubmoduleUrl ≠ Act.diffCached ∧
    Act.readSubmoduleUrl ∈ (setup_compiler oUrlReadFail "/c" ⟨wGood, []⟩).1.trace ∧
    (setup_compiler oUrlReadFail "/c" ⟨wGood, []⟩).2 = none := by
  decide

end Xtask
